import Mathlib

/-!
ImageAdDetector (extension/ml/model_inference/model.js)

A shallow embedding of the similarity metrics and of the classifier of
`ImageAdDetector`, followed by theorems about them.

Conventions of the embedding.
* A pixel buffer (`Uint8ClampedArray`) is a list of naturals; reading past the
  end gives `undefined`, which is `none` here.
* Integer arithmetic on bytes and counters is exact in doubles, so it is done
  in `Nat` and `Int`.
* Results of divisions are JavaScript numbers: exact rationals stand in for
  finite doubles, next to `NaN` and the two infinities.
-/

namespace ImageAdDetector

/-! ## JavaScript numbers -/

/-- JavaScript number: a finite value (an exact rational), NaN, or an infinity. -/
inductive JSNum where
  | num (q : ℚ)
  | nan
  | pinf
  | ninf
  deriving DecidableEq

namespace JSNum

/-- Addition of JavaScript numbers. -/
def add : JSNum → JSNum → JSNum
  | nan, _ => nan
  | _, nan => nan
  | num a, num b => num (a + b)
  | pinf, ninf => nan
  | ninf, pinf => nan
  | pinf, _ => pinf
  | _, pinf => pinf
  | ninf, _ => ninf
  | _, ninf => ninf

/-- Unary minus. -/
def neg : JSNum → JSNum
  | num a => num (-a)
  | nan => nan
  | pinf => ninf
  | ninf => pinf

/-- Subtraction of JavaScript numbers. -/
def sub (a b : JSNum) : JSNum := add a (neg b)

/-- Absolute value, `Math.abs`. -/
def abs : JSNum → JSNum
  | num a => num |a|
  | nan => nan
  | pinf => pinf
  | ninf => pinf

/-- Sign of an infinity times a finite factor: zero gives NaN. -/
def infTimes (positive : Bool) (q : ℚ) : JSNum :=
  if q = 0 then nan else if (0 < q) = positive then pinf else ninf

/-- Multiplication of JavaScript numbers. -/
def mul : JSNum → JSNum → JSNum
  | nan, _ => nan
  | _, nan => nan
  | num a, num b => num (a * b)
  | pinf, num b => infTimes true b
  | ninf, num b => infTimes false b
  | num a, pinf => infTimes true a
  | num a, ninf => infTimes false a
  | pinf, pinf => pinf
  | ninf, ninf => pinf
  | pinf, ninf => ninf
  | ninf, pinf => ninf

/-- Division of JavaScript numbers; a zero divisor is `+0`, the only zero the
detector divides by (a counter or a product of sizes). -/
def div : JSNum → JSNum → JSNum
  | nan, _ => nan
  | _, nan => nan
  | num a, num b =>
    if b = 0 then (if a = 0 then nan else if 0 < a then pinf else ninf)
    else num (a / b)
  | num _, pinf => num 0
  | num _, ninf => num 0
  | pinf, num b => if 0 ≤ b then pinf else ninf
  | ninf, num b => if 0 ≤ b then ninf else pinf
  | pinf, pinf => nan
  | pinf, ninf => nan
  | ninf, pinf => nan
  | ninf, ninf => nan

/-- The comparison `a < b`; false as soon as one side is NaN. -/
def lt : JSNum → JSNum → Bool
  | nan, _ => false
  | _, nan => false
  | num a, num b => decide (a < b)
  | _, ninf => false
  | pinf, _ => false
  | ninf, _ => true
  | num _, pinf => true

/-- The comparison `a > b`. -/
def gt (a b : JSNum) : Bool := lt b a

/-- Truthiness of a number: `0` and NaN are falsy. -/
def truthy : JSNum → Bool
  | num q => decide (q ≠ 0)
  | nan => false
  | pinf => true
  | ninf => true

end JSNum

open JSNum

/-! ## Buffers and loops -/

/-- Pixel buffer: the `data` of an `ImageData`, four bytes per pixel. -/
abbrev Buffer := List Nat

/-- Bytes of a `Uint8ClampedArray` are at most 255. -/
def IsBytes (data : Buffer) : Prop := ∀ v ∈ data, v < 256

/-- Canonical buffer: 200 x 200 RGBA bytes. -/
def IsCanonical (data : Buffer) : Prop := data.length = 200 * 200 * 4 ∧ IsBytes data

/-- Values taken by `i` in `for (let i = 0; i < bound; i += step)`, in order. -/
def stepIndices (bound step : Nat) : List Nat :=
  (List.range ((bound + step - 1) / step)).map (fun k => k * step)

/-! ## calculatePixelSimilarity -/

/-- Body of the sampling loop of `calculatePixelSimilarity` at offset `i`:
whether `similarPixels` is incremented. An `undefined` read makes `diff` NaN,
and both `diff < 150` and `diff < 80` are then false. -/
def pixelSimilar (data1 data2 : Buffer) (i : Nat) : Bool :=
  match data1[i]?, data1[i + 1]?, data1[i + 2]?, data2[i]?, data2[i + 1]?, data2[i + 2]? with
  | some r1, some g1, some b1, some r2, some g2, some b2 =>
    let diff : Int := |(r1 : Int) - r2| + |(g1 : Int) - g2| + |(b1 : Int) - b2|
    let brightness1 := r1 + g1 + b1
    let brightness2 := r2 + g2 + b2
    let isBackground1 := decide (brightness1 < 100) || decide (brightness1 > 600)
    let isBackground2 := decide (brightness2 < 100) || decide (brightness2 > 600)
    if isBackground1 || isBackground2 then decide (diff < 150) else decide (diff < 80)
  | _, _, _, _, _, _ => false

/-- Counters `(similarPixels, totalPixels)` after the sampling loop. -/
def pixelCounts (data1 data2 : Buffer) : Nat × Nat :=
  let sampleRate := 4
  (stepIndices data1.length (4 * sampleRate)).foldl
    (fun st i => (if pixelSimilar data1 data2 i then st.1 + 1 else st.1, st.2 + 1)) (0, 0)

/-- The method `calculatePixelSimilarity(data1, data2)`. -/
def calculatePixelSimilarity (data1 data2 : Buffer) : JSNum :=
  let c := pixelCounts data1 data2
  JSNum.div (num c.1) (num c.2)

/-! ## calculateStructuralSimilarity and detectEdges -/

/-- Read `data[i]` as an operand of arithmetic: `undefined` becomes NaN. -/
def readNum (data : Buffer) (i : Nat) : JSNum :=
  match data[i]? with
  | some v => num v
  | none => nan

/-- The method `detectEdges(data, x, y, size, width)`. -/
def detectEdges (data : Buffer) (x y size width : Nat) : JSNum :=
  let edgeStrength := (List.range size).foldl (fun acc dy =>
    (List.range size).foldl (fun acc dx =>
      let idx := ((y + dy) * width + (x + dx)) * 4
      if idx < data.length then
        let brightness := JSNum.div
          (JSNum.add (JSNum.add (readNum data idx) (readNum data (idx + 1))) (readNum data (idx + 2)))
          (num 3)
        JSNum.add acc brightness
      else acc) acc) (num 0)
  JSNum.div edgeStrength (num (size * size * 255))

/-- Whether the block at `(x, y)` is a structural match:
`Math.abs(edge1 - edge2) < 0.3`. -/
def blockMatches (data1 data2 : Buffer) (x y step width : Nat) : Bool :=
  let edge1 := detectEdges data1 x y step width
  let edge2 := detectEdges data2 x y step width
  JSNum.lt (JSNum.abs (JSNum.sub edge1 edge2)) (num (3 / 10))

/-- Counters `(structuralMatches, totalChecks)` after the two nested loops of
`calculateStructuralSimilarity`. The bounds `height - step` and `width - step`
are truncated at zero: a loop from 0 runs no iteration below a bound that is
zero or negative. -/
def structuralCounts (data1 data2 : Buffer) (width height : Nat) : Nat × Nat :=
  let step := 8
  (stepIndices (height - step) step).foldl (fun st y =>
    (stepIndices (width - step) step).foldl (fun st x =>
      (if blockMatches data1 data2 x y step width then st.1 + 1 else st.1, st.2 + 1)) st) (0, 0)

/-- The method `calculateStructuralSimilarity(data1, data2, width, height)`. -/
def calculateStructuralSimilarity (data1 data2 : Buffer) (width height : Nat) : JSNum :=
  let c := structuralCounts data1 data2 width height
  JSNum.div (num c.1) (num c.2)

/-! ## calculateHistogram and calculateColorDistribution -/

/-- Element of the JavaScript array `histogram`: a counter, NaN, or a hole
(an index below `length` that was never written; it reads as `undefined`). -/
inductive Cell where
  | count (n : Nat)
  | nan
  | hole
  deriving DecidableEq

/-- The update `cell++`: a counter is incremented, `undefined` and NaN become NaN. -/
def Cell.incr : Cell → Cell
  | Cell.count n => Cell.count (n + 1)
  | Cell.nan => Cell.nan
  | Cell.hole => Cell.nan

/-- The statement `histogram[k]++` on an array: writing at or past `length`
grows the array, leaving holes below `k`. -/
def histIncr (histogram : List Cell) (k : Nat) : List Cell :=
  let grown := histogram ++ List.replicate (k + 1 - histogram.length) Cell.hole
  grown.set k (Cell.incr (grown.getD k Cell.hole))

/-- The composite index `r * 64 + g * 8 + b` of a pixel in `calculateHistogram`,
over the channels divided by 8 and floored. -/
def compositeIndex (v0 v1 v2 : Nat) : Nat :=
  let r := v0 / 8
  let g := v1 / 8
  let b := v2 / 8
  r * 64 + g * 8 + b

/-- Bucket of a pixel in `calculateHistogram`: `Math.floor(index / 32)`. -/
def bucketOf (v0 v1 v2 : Nat) : Nat :=
  compositeIndex v0 v1 v2 / 32

/-- Body of the loop of `calculateHistogram` at offset `i`. When a channel read
is `undefined` the index is NaN and the increment touches no array element. -/
def histStep (data : Buffer) (histogram : List Cell) (i : Nat) : List Cell :=
  match data[i]?, data[i + 1]?, data[i + 2]? with
  | some v0, some v1, some v2 => histIncr histogram (bucketOf v0 v1 v2)
  | _, _, _ => histogram

/-- The method `calculateHistogram(data)`. -/
def calculateHistogram (data : Buffer) : List Cell :=
  (stepIndices data.length 4).foldl (histStep data) (List.replicate 32 (Cell.count 0))

/-- Read `histogram[i]` as an argument of `Math.min` or `Math.max`. -/
def cellNum : Option Cell → JSNum
  | some (Cell.count n) => num n
  | _ => nan

/-- The function `Math.min` on two arguments. -/
def jsMin (a b : JSNum) : JSNum :=
  match a, b with
  | nan, _ => nan
  | _, nan => nan
  | a, b => if JSNum.lt b a then b else a

/-- The function `Math.max` on two arguments. -/
def jsMax (a b : JSNum) : JSNum :=
  match a, b with
  | nan, _ => nan
  | _, nan => nan
  | a, b => if JSNum.lt a b then b else a

/-- Accumulators `(intersection, union)` of `calculateColorDistribution`. -/
def colorSums (histogram1 histogram2 : List Cell) : JSNum × JSNum :=
  (List.range histogram1.length).foldl (fun st i =>
    (JSNum.add st.1 (jsMin (cellNum histogram1[i]?) (cellNum histogram2[i]?)),
     JSNum.add st.2 (jsMax (cellNum histogram1[i]?) (cellNum histogram2[i]?)))) (num 0, num 0)

/-- The method `calculateColorDistribution(data1, data2)`. -/
def calculateColorDistribution (data1 data2 : Buffer) : JSNum :=
  let histogram1 := calculateHistogram data1
  let histogram2 := calculateHistogram data2
  let s := colorSums histogram1 histogram2
  if JSNum.gt s.2 (num 0) then JSNum.div s.1 s.2 else num 0

/-! ## compareImages -/

/-- The weighted sum at the end of `compareImages`. -/
def weightedSimilarity (pixelSimilarity structuralSimilarity colorDistributionSimilarity : JSNum) :
    JSNum :=
  JSNum.add
    (JSNum.add (JSNum.mul pixelSimilarity (num (2 / 5)))
      (JSNum.mul structuralSimilarity (num (2 / 5))))
    (JSNum.mul colorDistributionSimilarity (num (1 / 5)))

/-- The method `compareImages(img1, img2)`, on the pixel data `getImageData`
returns for each image after it is drawn on the 200 x 200 canvas. -/
def compareImages (data1 data2 : Buffer) : JSNum :=
  let targetWidth := 200
  let targetHeight := 200
  let pixelSimilarity := calculatePixelSimilarity data1 data2
  let structuralSimilarity := calculateStructuralSimilarity data1 data2 targetWidth targetHeight
  let colorDistributionSimilarity := calculateColorDistribution data1 data2
  weightedSimilarity pixelSimilarity structuralSimilarity colorDistributionSimilarity

/-! ## The detector and predict -/

/-- Result of a classification: `isAd` and `company` (`null` is `none`). -/
structure ClassificationResult where
  isAd : Bool
  company : Option String
  deriving DecidableEq

/-- State of an `ImageAdDetector` once `initialize` has run. `adSets` lists the
entries of the object in the order of `Object.entries`; `thresholds` lists the
own properties of the threshold object, a plain object. -/
structure Detector where
  adSets : List (String × List Buffer)
  normalImages : List Buffer
  videoFrameInterval : Nat
  thresholds : List (String × JSNum)

/-- The threshold object built by the constructor. -/
def constructorThresholds : List (String × JSNum) :=
  [("normal", num (1 / 4)), ("stake", num (7 / 20)), ("default", num (1 / 4))]

/-- A value read from the threshold object: a number, `undefined`, or one of
the functions and objects every plain object inherits from `Object.prototype`. -/
inductive JSValue where
  | number (x : JSNum)
  | undefined
  | inherited
  deriving DecidableEq

/-- Names of the properties of `Object.prototype`. -/
def objectPrototypeNames : List String :=
  ["constructor", "hasOwnProperty", "isPrototypeOf", "propertyIsEnumerable",
    "toLocaleString", "toString", "valueOf", "__proto__", "__defineGetter__",
    "__defineSetter__", "__lookupGetter__", "__lookupSetter__"]

/-- Property read `thresholds[key]` on the plain object whose own properties
are listed: an own property first, then a property of `Object.prototype`. -/
def getThreshold (thresholds : List (String × JSNum)) (key : String) : JSValue :=
  match thresholds.lookup key with
  | some x => JSValue.number x
  | none =>
    if objectPrototypeNames.contains key then JSValue.inherited else JSValue.undefined

/-- Truthiness of a value: `undefined` is falsy, functions and objects are truthy. -/
def JSValue.truthy : JSValue → Bool
  | JSValue.number x => JSNum.truthy x
  | JSValue.undefined => false
  | JSValue.inherited => true

/-- The expression `a || b`. -/
def jsOr (a b : JSValue) : JSValue :=
  if a.truthy then a else b

/-- The threshold `this.thresholds[company] || this.thresholds.default`. -/
def companyThreshold (thresholds : List (String × JSNum)) (company : String) : JSValue :=
  jsOr (getThreshold thresholds company) (getThreshold thresholds "default")

/-- The test `similarity > threshold`; `undefined`, a function and a plain
object all convert to NaN, which compares false. -/
def exceeds (similarity : JSNum) (threshold : JSValue) : Bool :=
  match threshold with
  | JSValue.number t => JSNum.gt similarity t
  | JSValue.undefined => false
  | JSValue.inherited => false

/-- Which reference list a compared image belongs to. -/
inductive RefKind where
  | normal
  | ad (company : String)
  deriving DecidableEq

/-- Loop of `predict` over `this.normalImages`: whether it returned, and the
reference images passed to `compareImages`, in order. -/
def scanNormal (thresholds : List (String × JSNum)) (tweetImg : Buffer) :
    List Buffer → Bool × List (RefKind × Buffer)
  | [] => (false, [])
  | normalImg :: rest =>
    let similarity := compareImages tweetImg normalImg
    if exceeds similarity (getThreshold thresholds "normal") then
      (true, [(RefKind.normal, normalImg)])
    else
      let r := scanNormal thresholds tweetImg rest
      (r.1, (RefKind.normal, normalImg) :: r.2)

/-- Inner loop of `predict` over the images of one company. -/
def scanAdImages (thresholds : List (String × JSNum)) (tweetImg : Buffer) (company : String) :
    List Buffer → Bool × List (RefKind × Buffer)
  | [] => (false, [])
  | adImg :: rest =>
    let similarity := compareImages tweetImg adImg
    let threshold := companyThreshold thresholds company
    if exceeds similarity threshold then
      (true, [(RefKind.ad company, adImg)])
    else
      let r := scanAdImages thresholds tweetImg company rest
      (r.1, (RefKind.ad company, adImg) :: r.2)

/-- Outer loop of `predict` over `Object.entries(this.adSets)`: the company
returned, if any, and the images compared. -/
def scanAdSets (thresholds : List (String × JSNum)) (tweetImg : Buffer) :
    List (String × List Buffer) → Option String × List (RefKind × Buffer)
  | [] => (none, [])
  | (company, adImages) :: rest =>
    let r := scanAdImages thresholds tweetImg company adImages
    if r.1 then (some company, r.2)
    else
      let q := scanAdSets thresholds tweetImg rest
      (q.1, r.2 ++ q.2)

/-- The method `predict`, with the reference images its own loops compare the
tweet image with. `tweetImages` is the result of `getTweetImages`; `videoResult`
is what `checkVideoForAds` resolves to for the first video of the tweet, `none`
when it has no video. -/
def predictTrace (d : Detector) (tweetImages : List Buffer)
    (videoResult : Option ClassificationResult) :
    ClassificationResult × List (RefKind × Buffer) :=
  match tweetImages with
  | tweetImg :: _ =>
    let n := scanNormal d.thresholds tweetImg d.normalImages
    if n.1 then (⟨false, none⟩, n.2)
    else
      let a := scanAdSets d.thresholds tweetImg d.adSets
      match a.1 with
      | some company => (⟨true, some company⟩, n.2 ++ a.2)
      | none => (⟨false, none⟩, n.2 ++ a.2)
  | [] =>
    match videoResult with
    | some r => if r.isAd then (r, []) else (⟨false, none⟩, [])
    | none => (⟨false, none⟩, [])

/-- The method `predict`: its return value. -/
def predict (d : Detector) (tweetImages : List Buffer)
    (videoResult : Option ClassificationResult) : ClassificationResult :=
  (predictTrace d tweetImages videoResult).1

/-! ## checkVideoForAds -/

/-- What one call of `checkFrame` does: the value it passes to the `resolve` of
the promise, if any, and the value it returns (`none` is `undefined`). The
source leaves with a bare `return;` after resolving and falls off the end of
the function otherwise, so the returned value is `undefined` on every path. -/
structure FrameOutcome where
  resolved : Option ClassificationResult
  result : Option ClassificationResult
  deriving DecidableEq

/-- Inner loop of `checkFrame` over the images of one company: whether
`similarity > 0.25` holds for one of them. -/
def frameMatchesImages (frameImage : Buffer) : List Buffer → Bool
  | [] => false
  | adImg :: rest =>
    let similarity := compareImages frameImage adImg
    if JSNum.gt similarity (num (1 / 4)) then true
    else frameMatchesImages frameImage rest

/-- Outer loop of `checkFrame` over `Object.entries(this.adSets)`: the company
of the first match, if any. -/
def frameMatchesSets (frameImage : Buffer) : List (String × List Buffer) → Option String
  | [] => none
  | (company, adImages) :: rest =>
    if frameMatchesImages frameImage adImages then some company
    else frameMatchesSets frameImage rest

/-- The closure `checkFrame` of `checkVideoForAds`, on the canonical pixels of
the captured frame. -/
def checkFrame (adSets : List (String × List Buffer)) (frameImage : Buffer) : FrameOutcome :=
  match frameMatchesSets frameImage adSets with
  | some company => ⟨some ⟨true, some company⟩, none⟩
  | none => ⟨none, none⟩

/-- The test `result && result.isAd`. -/
def isAdResult : Option ClassificationResult → Bool
  | some result => result.isAd
  | none => false

/-- Timer callbacks of `checkVideoForAds`: the `k`-th firing of the interval
(`k` from 1) and the firing of the 5000 ms timeout. -/
inductive TimerEvent where
  | tick (k : Nat)
  | timeout
  deriving DecidableEq

/-- State of one run of `checkVideoForAds`: the value the promise is settled
with, whether the interval is still scheduled, and the ticks at which a frame
was captured and classified (tick 0 is the immediate first check). -/
structure SamplerState where
  settled : Option ClassificationResult
  intervalActive : Bool
  captured : List Nat
  deriving DecidableEq

/-- The call `resolve(value)`: only the first call settles the promise. -/
def SamplerState.resolve (st : SamplerState) (value : ClassificationResult) : SamplerState :=
  match st.settled with
  | some _ => st
  | none => ⟨some value, st.intervalActive, st.captured⟩

/-- The call `clearInterval(interval)`. -/
def SamplerState.clearInterval (st : SamplerState) : SamplerState :=
  ⟨st.settled, false, st.captured⟩

/-- One call `await checkFrame()` at tick `k`: the frame is captured and
classified, `resolve` is called on a match, and the returned value is handed
back to the caller. -/
def runCheckFrame (adSets : List (String × List Buffer)) (frames : Nat → Buffer) (k : Nat)
    (st : SamplerState) : SamplerState × Option ClassificationResult :=
  let outcome := checkFrame adSets (frames k)
  let st1 : SamplerState := ⟨st.settled, st.intervalActive, st.captured ++ [k]⟩
  (match outcome.resolved with
    | some value => st1.resolve value
    | none => st1, outcome.result)

/-- One timer callback. `stopped k` is `video.ended || video.paused` at tick
`k`. A cleared interval does not fire. -/
def samplerStep (adSets : List (String × List Buffer)) (frames : Nat → Buffer)
    (stopped : Nat → Bool) (st : SamplerState) : TimerEvent → SamplerState
  | TimerEvent.tick k =>
    if st.intervalActive then
      if stopped k then st.clearInterval.resolve ⟨false, none⟩
      else
        let r := runCheckFrame adSets frames k st
        if isAdResult r.2 then
          match r.2 with
          | some result => r.1.clearInterval.resolve result
          | none => r.1
        else r.1
    else st
  | TimerEvent.timeout => st.clearInterval.resolve ⟨false, none⟩

/-- Timer callbacks in the order they become due, for a positive interval: the
ticks due by 5000 ms, the timeout, then `extra` further periods of the
interval. A tick due at 5000 ms comes before the timeout, since the interval is
created first. Each callback is taken to complete before the next one is due. -/
def timeline (interval extra : Nat) : List TimerEvent :=
  (List.range (5000 / interval)).map (fun j => TimerEvent.tick (j + 1))
    ++ [TimerEvent.timeout]
    ++ (List.range extra).map (fun j => TimerEvent.tick (5000 / interval + 1 + j))

/-- The method `checkVideoForAds(video)`, observed until `extra` periods after
the timeout. `frames k` is the canonical data of the frame drawn at tick `k`. -/
def checkVideoForAds (d : Detector) (frames : Nat → Buffer) (stopped : Nat → Bool)
    (extra : Nat) : SamplerState :=
  let first := runCheckFrame d.adSets frames 0 ⟨none, false, []⟩
  if isAdResult first.2 then
    match first.2 with
    | some result => first.1.resolve result
    | none => first.1
  else
    (timeline d.videoFrameInterval extra).foldl (samplerStep d.adSets frames stopped)
      ⟨first.1.settled, true, first.1.captured⟩

/-! ## initialize -/

/-- The combinator `Promise.all` over the calls `loadImage(url)` of one folder:
an entry `none` is a load whose `onerror` fired; one rejected load rejects the
whole, which `await` turns into an exception (`none`). -/
def promiseAll : List (Option Buffer) → Option (List Buffer)
  | [] => some []
  | none :: _ => none
  | some img :: rest =>
    match promiseAll rest with
    | some imgs => some (img :: imgs)
    | none => none

/-- The assignment `this.adSets[company] = images` on the entries of the object. -/
def setAdSet (adSets : List (String × List Buffer)) (company : String) (images : List Buffer) :
    List (String × List Buffer) :=
  if adSets.any (fun e => e.1 == company) then
    adSets.map (fun e => if e.1 == company then (company, images) else e)
  else adSets ++ [(company, images)]

/-- The loop of `initialize` over `companies`. `loads folder` lists the outcomes
of `loadImage` for the URLs `getImageUrls(folder)` returns. The second
component is false when an exception left the loop. -/
def loadCompanies (loads : String → List (Option Buffer)) :
    List String → List (String × List Buffer) → List (String × List Buffer) × Bool
  | [], adSets => (adSets, true)
  | company :: rest, adSets =>
    match promiseAll (loads ("ads/" ++ company)) with
    | some images => loadCompanies loads rest (setAdSet adSets company images)
    | none => (adSets, false)

/-- The method `initialize` (a reserved word here): the detector after the call
and the value of `this.initialized`. An exception is caught by the one `try` around the body,
which is left at once. -/
def initializeDetector (d : Detector) (loads : String → List (Option Buffer)) : Detector × Bool :=
  match promiseAll (loads "normal") with
  | none => (d, false)
  | some normalImages =>
    let companies := ["stake"]
    let r := loadCompanies loads companies d.adSets
    (⟨r.1, normalImages, d.videoFrameInterval, d.thresholds⟩, r.2)

/-- The fields set by the constructor. -/
def newDetector : Detector := ⟨[], [], 2000, constructorThresholds⟩

/-! ## Auxiliary definitions used by the proofs -/

/-- Pixel-by-pixel form of the loop of `calculateHistogram` on a whole-pixel buffer. -/
def histFrom (histogram : List Cell) : Buffer → List Cell
  | v0 :: v1 :: v2 :: _ :: rest => histFrom (histIncr histogram (bucketOf v0 v1 v2)) rest
  | _ => histogram

/-- The loop of `calculateColorDistribution` cut after `n` iterations. -/
def colorLoop (histogram1 histogram2 : List Cell) (n : Nat) : JSNum × JSNum :=
  (List.range n).foldl (fun st i =>
    (JSNum.add st.1 (jsMin (cellNum histogram1[i]?) (cellNum histogram2[i]?)),
     JSNum.add st.2 (jsMax (cellNum histogram1[i]?) (cellNum histogram2[i]?)))) (num 0, num 0)

/-- Buffer of `n` pixels, all of colour `(r, g, b, a)`. -/
def solid (r g b a : Nat) : Nat → Buffer
  | 0 => []
  | n + 1 => r :: g :: b :: a :: solid r g b a n

/-- The canonical buffer of an opaque white image. -/
def whiteBuffer : Buffer := solid 255 255 255 255 (200 * 200)

/-- The canonical buffer of an opaque black image. -/
def blackBuffer : Buffer := solid 0 0 0 255 (200 * 200)

/-- The opaque black image with its first pixel set to the dark red `(128, 0, 0)`. -/
def redDotBuffer : Buffer := 128 :: 0 :: 0 :: 255 :: solid 0 0 0 255 (200 * 200 - 1)

/-- Detector with the thresholds of the constructor, whose normal list and
whose only advertiser list both hold the white image. -/
def sameImageDetector : Detector :=
  ⟨[("stake", [whiteBuffer])], [whiteBuffer], 2000, constructorThresholds⟩

/-- Detector with the thresholds of the constructor, a black normal image and a
white advertiser image. -/
def blackNormalDetector : Detector :=
  ⟨[("stake", [whiteBuffer])], [blackBuffer], 2000, constructorThresholds⟩

/-- The threshold object of the constructor with the entry of `stake` set to 0. -/
def zeroStakeThresholds : List (String × JSNum) :=
  [("normal", num (1 / 4)), ("stake", num 0), ("default", num (1 / 4))]

/-- Whether some image of an advertiser category scores above the threshold
`predict` uses for that category. -/
def adCategoryMatches (thresholds : List (String × JSNum)) (tweetImg : Buffer)
    (entry : String × List Buffer) : Bool :=
  entry.2.any (fun adImg =>
    exceeds (compareImages tweetImg adImg) (companyThreshold thresholds entry.1))

/-- Two buffers of the same length that agree on every byte but the alpha
bytes (the offsets 3 modulo 4). -/
def SameRGB (a b : Buffer) : Prop :=
  a.length = b.length ∧ ∀ i : Nat, i % 4 ≠ 3 → a[i]? = b[i]?

/-- The white canonical buffer with every alpha byte set to 0. -/
def whiteClearBuffer : Buffer := solid 255 255 255 0 (200 * 200)

/-- The black canonical buffer with every alpha byte set to 0. -/
def blackClearBuffer : Buffer := solid 0 0 0 0 (200 * 200)

/-- Detector with the thresholds of the constructor and the black image as the
only advertiser reference. -/
def blackAdDetector : Detector :=
  ⟨[("stake", [blackBuffer])], [], 2000, constructorThresholds⟩

/-- Detector whose reference lists are all empty. -/
def emptyDetector : Detector :=
  ⟨[("stake", [])], [], 2000, constructorThresholds⟩

/-- A video whose first frame is white and whose later frames are black. -/
def whiteThenBlack : Nat → Buffer := fun k => if k = 0 then whiteBuffer else blackBuffer

/-- A video whose frames are all white. -/
def allWhite : Nat → Buffer := fun _ => whiteBuffer

/-- A video that is neither ended nor paused at any tick. -/
def playing : Nat → Bool := fun _ => false

/-- Load outcomes where the second of two normal images fails and the one image
of `stake` loads. -/
def oneNormalFails : String → List (Option Buffer) := fun folder =>
  if folder = "normal" then [some whiteBuffer, none] else [some blackBuffer]

/-- Load outcomes where every image loads. -/
def allLoad : String → List (Option Buffer) := fun folder =>
  if folder = "normal" then [some whiteBuffer] else [some blackBuffer]

/-- The threshold of a category as the specification words it: the entry of
the table when the category has an explicit entry, the default threshold when
it has none. -/
def specCategoryThreshold (thresholds : List (String × JSNum)) (company : String) : JSValue :=
  match thresholds.lookup company with
  | some t => JSValue.number t
  | none => getThreshold thresholds "default"

/-- Whether some image of a category scores above the threshold the
specification gives that category. -/
def specCategoryMatches (thresholds : List (String × JSNum)) (tweetImg : Buffer)
    (entry : String × List Buffer) : Bool :=
  entry.2.any (fun adImg =>
    exceeds (compareImages tweetImg adImg) (specCategoryThreshold thresholds entry.1))

/-- The ad step of the classifier as the specification words it: the first
category, in stored order, with an image above the threshold of the category,
and not-ad with no company when there is none. -/
def specAdMatch (thresholds : List (String × JSNum)) (tweetImg : Buffer)
    (adSets : List (String × List Buffer)) : ClassificationResult :=
  match adSets.find? (specCategoryMatches thresholds tweetImg) with
  | some entry => ⟨true, some entry.1⟩
  | none => ⟨false, none⟩

/-- Threshold object with the entry 0 for `stake` and the default 0.9. -/
def zeroStakeHighDefault : List (String × JSNum) :=
  [("normal", num (1 / 4)), ("stake", num 0), ("default", num (9 / 10))]

/-- Detector with that threshold object, a black normal image and a white
`stake` image. -/
def zeroStakeDetector : Detector :=
  ⟨[("stake", [whiteBuffer])], [blackBuffer], 2000, zeroStakeHighDefault⟩

/-- Detector with the thresholds of the constructor, a black normal image and
a white image for a company named `constructor`. -/
def constructorNameDetector : Detector :=
  ⟨[("constructor", [whiteBuffer])], [blackBuffer], 2000, constructorThresholds⟩

/-! # Theorems -/

/-! ## Loops and counters -/

/-- The loop variable takes exactly the multiples of `step` below `bound`. -/
theorem mem_stepIndices {bound step i : Nat} (hs : 0 < step) :
    i ∈ stepIndices bound step ↔ i < bound ∧ step ∣ i := by
  unfold stepIndices
  simp only [List.mem_map, List.mem_range]
  constructor
  · rintro ⟨k, hk, rfl⟩
    refine ⟨?_, Dvd.intro_left k rfl⟩
    have h1 : (k + 1) * step ≤ bound + step - 1 := (Nat.le_div_iff_mul_le hs).1 hk
    rw [Nat.succ_mul] at h1
    omega
  · rintro ⟨hi, k, rfl⟩
    refine ⟨k, ?_, Nat.mul_comm _ _⟩
    apply (Nat.le_div_iff_mul_le hs).2
    rw [Nat.succ_mul, Nat.mul_comm k step]
    omega

/-- Number of iterations of the loop. -/
theorem length_stepIndices (bound step : Nat) :
    (stepIndices bound step).length = (bound + step - 1) / step := by
  simp [stepIndices]

/-- A loop that bumps a match counter on `p` and a total counter every time. -/
theorem foldl_counters (p : Nat → Bool) (l : List Nat) (s t : Nat) :
    l.foldl (fun st i => (if p i then st.1 + 1 else st.1, st.2 + 1)) (s, t)
      = (s + l.countP p, t + l.length) := by
  induction l generalizing s t with
  | nil => simp
  | cons i l ih =>
    simp only [List.foldl_cons, List.countP_cons, List.length_cons]
    rw [ih]
    by_cases hp : p i <;> simp [hp] <;> omega

/-- A positive counter divided by itself is 1. -/
theorem div_self_count {n : Nat} (hn : 0 < n) : JSNum.div (num n) (num n) = num 1 := by
  have h : (n : ℚ) ≠ 0 := by exact_mod_cast hn.ne.symm
  simp [JSNum.div, h]

/-! ## Pixel similarity -/

/-- Closed form of the two counters of `calculatePixelSimilarity`. -/
theorem pixelCounts_eq (data1 data2 : Buffer) :
    pixelCounts data1 data2 =
      ((stepIndices data1.length 16).countP (pixelSimilar data1 data2),
       (stepIndices data1.length 16).length) := by
  unfold pixelCounts
  simp only [Nat.reduceMul]
  rw [foldl_counters]
  simp

/-- A sampled pixel of a whole-pixel buffer is similar to itself. -/
theorem pixelSimilar_self (a : Buffer) (h4 : a.length % 4 = 0) {i : Nat}
    (hi : i ∈ stepIndices a.length 16) : pixelSimilar a a i = true := by
  obtain ⟨hlt, k, rfl⟩ := (mem_stepIndices (by norm_num)).1 hi
  have h0 : 16 * k < a.length := hlt
  have h1 : 16 * k + 1 < a.length := by omega
  have h2 : 16 * k + 2 < a.length := by omega
  unfold pixelSimilar
  rw [List.getElem?_eq_getElem h0, List.getElem?_eq_getElem h1, List.getElem?_eq_getElem h2]
  simp

/-- The per-pixel test does not depend on the order of the two buffers. -/
theorem pixelSimilar_comm (a b : Buffer) (i : Nat) : pixelSimilar a b i = pixelSimilar b a i := by
  unfold pixelSimilar
  cases a[i]? <;> cases a[i + 1]? <;> cases a[i + 2]? <;>
    cases b[i]? <;> cases b[i + 1]? <;> cases b[i + 2]? <;> try rfl
  simp only [abs_sub_comm, Bool.or_comm]

/-- Pixel similarity of a non-empty whole-pixel buffer with itself. -/
theorem pixelSimilarity_self (a : Buffer) (hne : a ≠ []) (h4 : a.length % 4 = 0) :
    calculatePixelSimilarity a a = num 1 := by
  unfold calculatePixelSimilarity
  rw [pixelCounts_eq]
  have hall : (stepIndices a.length 16).countP (pixelSimilar a a)
      = (stepIndices a.length 16).length := by
    rw [List.countP_eq_length]
    intro i hi
    exact pixelSimilar_self a h4 hi
  simp only [hall]
  apply div_self_count
  rw [length_stepIndices]
  have : 0 < a.length := List.length_pos.2 hne
  omega

/-- The weighted sum of three finite scores. -/
theorem weightedSimilarity_num (p s c : ℚ) :
    weightedSimilarity (num p) (num s) (num c) = num (p * (2 / 5) + s * (2 / 5) + c * (1 / 5)) := by
  simp [weightedSimilarity, JSNum.add, JSNum.mul]

/-! ## Structural similarity -/

/-- An invariant of the loop body is an invariant of the loop. -/
theorem foldl_invariant {σ ι : Type} (P : σ → Prop) (f : σ → ι → σ) (l : List ι) (init : σ)
    (h0 : P init) (hstep : ∀ s i, P s → P (f s i)) : P (l.foldl f init) := by
  induction l generalizing init with
  | nil => exact h0
  | cons i l ih => exact ih _ (hstep _ _ h0)

/-- Closed form of the two counters of `calculateStructuralSimilarity`. -/
theorem structuralCounts_eq (data1 data2 : Buffer) (width height : Nat) :
    structuralCounts data1 data2 width height =
      (((stepIndices (height - 8) 8).map (fun y =>
          (stepIndices (width - 8) 8).countP (fun x => blockMatches data1 data2 x y 8 width))).sum,
       (stepIndices (height - 8) 8).length * (stepIndices (width - 8) 8).length) := by
  unfold structuralCounts
  simp only
  have key : ∀ (ys : List Nat) (st : Nat × Nat),
      ys.foldl (fun st y => (stepIndices (width - 8) 8).foldl (fun st x =>
        (if blockMatches data1 data2 x y 8 width then st.1 + 1 else st.1, st.2 + 1)) st) st
      = (st.1 + (ys.map (fun y =>
          (stepIndices (width - 8) 8).countP (fun x => blockMatches data1 data2 x y 8 width))).sum,
         st.2 + ys.length * (stepIndices (width - 8) 8).length) := by
    intro ys
    induction ys with
    | nil => intro st; simp
    | cons y ys ih =>
      intro st
      simp only [List.foldl_cons, List.map_cons, List.sum_cons, List.length_cons]
      rw [foldl_counters (fun x => blockMatches data1 data2 x y 8 width), ih]
      simp only [Prod.mk.injEq]
      constructor
      · omega
      · rw [Nat.succ_mul]; omega
  rw [key]
  simp

/-- Number of blocks `calculateStructuralSimilarity` examines. -/
theorem structuralCounts_total (data1 data2 : Buffer) (width height : Nat) :
    (structuralCounts data1 data2 width height).2 = ((height - 8 + 7) / 8) * ((width - 8 + 7) / 8) := by
  rw [structuralCounts_eq]
  simp [length_stepIndices]

/-- On a whole-pixel buffer `detectEdges` returns a finite number. -/
theorem detectEdges_num (data : Buffer) (h4 : data.length % 4 = 0) (x y width : Nat) :
    ∃ q : ℚ, detectEdges data x y 8 width = num q := by
  unfold detectEdges
  simp only
  have hfold : ∃ q : ℚ, (List.range 8).foldl (fun acc dy =>
      (List.range 8).foldl (fun acc dx =>
        if ((y + dy) * width + (x + dx)) * 4 < data.length then
          JSNum.add acc (JSNum.div
            (JSNum.add (JSNum.add (readNum data (((y + dy) * width + (x + dx)) * 4))
              (readNum data (((y + dy) * width + (x + dx)) * 4 + 1)))
              (readNum data (((y + dy) * width + (x + dx)) * 4 + 2)))
            (num 3))
        else acc) acc) (num 0) = num q := by
    apply foldl_invariant (fun s => ∃ q : ℚ, s = num q)
    · exact ⟨0, rfl⟩
    · intro s dy hs
      apply foldl_invariant (fun s => ∃ q : ℚ, s = num q)
      · exact hs
      · rintro s dx ⟨q, rfl⟩
        split
        · rename_i hlt
          have h1 : ((y + dy) * width + (x + dx)) * 4 + 1 < data.length := by omega
          have h2 : ((y + dy) * width + (x + dx)) * 4 + 2 < data.length := by omega
          simp only [readNum, List.getElem?_eq_getElem hlt, List.getElem?_eq_getElem h1,
            List.getElem?_eq_getElem h2]
          have hdiv : ∀ a : ℚ, JSNum.div (num a) (num 3) = num (a / 3) := by
            intro a
            simp [JSNum.div]
          simp only [JSNum.add, hdiv]
          exact ⟨_, rfl⟩
        · exact ⟨q, rfl⟩
  obtain ⟨q, hq⟩ := hfold
  rw [hq]
  refine ⟨q / 16320, ?_⟩
  simp only [JSNum.div]
  norm_num

/-- A block of a whole-pixel buffer matches itself. -/
theorem blockMatches_self (data : Buffer) (h4 : data.length % 4 = 0) (x y width : Nat) :
    blockMatches data data x y 8 width = true := by
  unfold blockMatches
  obtain ⟨q, hq⟩ := detectEdges_num data h4 x y width
  simp [hq, JSNum.sub, JSNum.neg, JSNum.add, JSNum.abs, JSNum.lt]

/-- Structural similarity of a whole-pixel buffer with itself, on a canvas
wider and higher than one block. -/
theorem structuralSimilarity_self (data : Buffer) (h4 : data.length % 4 = 0)
    (width height : Nat) (hw : 8 < width) (hh : 8 < height) :
    calculateStructuralSimilarity data data width height = num 1 := by
  unfold calculateStructuralSimilarity
  rw [structuralCounts_eq]
  have hall : ((stepIndices (height - 8) 8).map (fun y =>
      (stepIndices (width - 8) 8).countP (fun x => blockMatches data data x y 8 width))).sum
      = (stepIndices (height - 8) 8).length * (stepIndices (width - 8) 8).length := by
    have : (fun y => (stepIndices (width - 8) 8).countP
        (fun x => blockMatches data data x y 8 width))
        = fun _ => (stepIndices (width - 8) 8).length := by
      funext y
      rw [List.countP_eq_length]
      intro x _
      exact blockMatches_self data h4 x y width
    rw [this]
    simp [List.sum_replicate, List.map_const']
  simp only [hall]
  have hpos : 0 < (stepIndices (height - 8) 8).length * (stepIndices (width - 8) 8).length := by
    rw [length_stepIndices, length_stepIndices]
    apply Nat.mul_pos
    · apply Nat.div_pos <;> omega
    · apply Nat.div_pos <;> omega
  have := div_self_count hpos
  exact_mod_cast this

/-! ## Colour histogram -/

/-- The indexed loop over a whole-pixel buffer visits its pixels one by one. -/
theorem histStep_loop (n : Nat) : ∀ (pre data : Buffer) (h : List Cell), data.length = 4 * n →
    ((List.range n).map (fun k => pre.length + k * 4)).foldl (histStep (pre ++ data)) h
      = histFrom h data := by
  induction n with
  | zero =>
    intro pre data h hlen
    have : data = [] := List.length_eq_zero.1 (by omega)
    subst this
    simp [histFrom]
  | succ n ih =>
    intro pre data h hlen
    match data, hlen with
    | v0 :: v1 :: v2 :: v3 :: rest, hlen =>
      have hrest : rest.length = 4 * n := by simp at hlen; omega
      rw [List.range_succ_eq_map, List.map_cons, List.foldl_cons, List.map_map]
      have hfirst : histStep (pre ++ v0 :: v1 :: v2 :: v3 :: rest) h (pre.length + 0 * 4)
          = histIncr h (bucketOf v0 v1 v2) := by
        have e0 : (pre ++ v0 :: v1 :: v2 :: v3 :: rest)[pre.length + 0 * 4]? = some v0 := by
          rw [List.getElem?_append_right (by omega)]
          simp
        have e1 : (pre ++ v0 :: v1 :: v2 :: v3 :: rest)[pre.length + 0 * 4 + 1]? = some v1 := by
          rw [List.getElem?_append_right (by omega)]
          simp
        have e2 : (pre ++ v0 :: v1 :: v2 :: v3 :: rest)[pre.length + 0 * 4 + 2]? = some v2 := by
          rw [List.getElem?_append_right (by omega)]
          simp
        simp only [histStep, e0, e1, e2]
      rw [hfirst]
      have hpre : pre ++ v0 :: v1 :: v2 :: v3 :: rest = (pre ++ [v0, v1, v2, v3]) ++ rest := by
        simp
      have hidx : ((fun k => pre.length + k * 4) ∘ Nat.succ)
          = fun k => (pre ++ [v0, v1, v2, v3]).length + k * 4 := by
        funext k
        simp [Nat.succ_mul]
        omega
      rw [hpre, hidx, ih (pre ++ [v0, v1, v2, v3]) rest _ hrest]
      simp [histFrom]

/-- The histogram of a whole-pixel buffer, pixel by pixel. -/
theorem calculateHistogram_eq_histFrom (data : Buffer) (h4 : data.length % 4 = 0) :
    calculateHistogram data = histFrom (List.replicate 32 (Cell.count 0)) data := by
  unfold calculateHistogram
  have hlen : data.length = 4 * (data.length / 4) := by omega
  have := histStep_loop (data.length / 4) [] data (List.replicate 32 (Cell.count 0)) hlen
  rw [← this]
  unfold stepIndices
  have h1 : (data.length + 4 - 1) / 4 = data.length / 4 := by omega
  rw [h1]
  simp


/-- The sums of `calculateColorDistribution` are the loop run to the length of the first histogram. -/
theorem colorSums_eq_colorLoop (h1 h2 : List Cell) :
    colorSums h1 h2 = colorLoop h1 h2 h1.length := rfl

/-- Once a bucket reads as NaN, both sums are NaN at the end of the loop. -/
theorem foldl_colour_nan (h1 h2 : List Cell) (i : Nat)
    (hnan : cellNum h1[i]? = nan ∨ cellNum h2[i]? = nan) :
    ∀ (l : List Nat) (st : JSNum × JSNum), (i ∈ l ∨ st = (nan, nan)) →
      l.foldl (fun st i =>
        (JSNum.add st.1 (jsMin (cellNum h1[i]?) (cellNum h2[i]?)),
         JSNum.add st.2 (jsMax (cellNum h1[i]?) (cellNum h2[i]?)))) st = (nan, nan) := by
  have hmin : jsMin (cellNum h1[i]?) (cellNum h2[i]?) = nan := by
    rcases hnan with h | h <;> rw [h] <;> cases cellNum _ <;> rfl
  have hmax : jsMax (cellNum h1[i]?) (cellNum h2[i]?) = nan := by
    rcases hnan with h | h <;> rw [h] <;> cases cellNum _ <;> rfl
  have hadd : ∀ x : JSNum, JSNum.add x nan = nan := by
    intro x; cases x <;> rfl
  have hadd2 : ∀ x : JSNum, JSNum.add nan x = nan := by
    intro x; cases x <;> rfl
  intro l
  induction l with
  | nil =>
    intro st h
    rcases h with h | h
    · simp at h
    · simpa using h
  | cons j l ih =>
    intro st h
    rw [List.foldl_cons]
    apply ih
    rcases h with h | h
    · rcases List.mem_cons.1 h with rfl | h
      · right
        rw [hmin, hmax, hadd, hadd]
      · left; exact h
    · right
      subst h
      simp only [hadd2]

/-- A bucket of the first histogram that reads as NaN makes the metric 0. -/
theorem colorDistribution_nan (data1 data2 : Buffer) (i : Nat)
    (hi : i < (calculateHistogram data1).length)
    (hnan : cellNum (calculateHistogram data1)[i]? = nan) :
    calculateColorDistribution data1 data2 = num 0 := by
  unfold calculateColorDistribution colorSums
  simp only
  rw [foldl_colour_nan _ _ i (Or.inl hnan) _ _ (Or.inl (List.mem_range.2 hi))]
  rfl

/-- Sums of the loop over two histograms that start with counters. -/
theorem colorLoop_counts (c1 : List Nat) : ∀ (c2 : List Nat) (e1 e2 : List Cell),
    c1.length = c2.length →
    colorLoop (c1.map Cell.count ++ e1) (c2.map Cell.count ++ e2) c1.length
      = (num ((List.zipWith min c1 c2).sum : Nat), num ((List.zipWith max c1 c2).sum : Nat)) := by
  induction c1 using List.reverseRecOn with
  | nil =>
    intro c2 e1 e2 hlen
    have : c2 = [] := List.length_eq_zero.1 hlen.symm
    subst this
    simp [colorLoop]
  | append_singleton c1 x ih =>
    intro c2 e1 e2 hlen
    rcases List.eq_nil_or_concat c2 with rfl | ⟨c2, y, rfl⟩
    · simp at hlen
    · rw [List.concat_eq_append] at hlen ⊢
      have hlen2 : c1.length = c2.length := by simpa using hlen
      have ih2 := ih c2 (Cell.count x :: e1) (Cell.count y :: e2) hlen2
      unfold colorLoop at ih2 ⊢
      simp only [List.length_append, List.length_singleton, List.range_succ, List.foldl_append,
        List.foldl_cons, List.foldl_nil, List.map_append, List.map_cons, List.map_nil,
        List.append_assoc, List.singleton_append]
      rw [ih2]
      have r1 : (List.map Cell.count c1 ++ Cell.count x :: e1)[c1.length]? = some (Cell.count x) := by
        rw [List.getElem?_append_right (by simp)]
        simp
      have r2 : (List.map Cell.count c2 ++ Cell.count y :: e2)[c1.length]? = some (Cell.count y) := by
        rw [List.getElem?_append_right (by simp [hlen2])]
        simp [hlen2]
      rw [r1, r2]
      simp only [cellNum]
      rw [List.zipWith_append _ _ _ _ _ hlen2, List.zipWith_append _ _ _ _ _ hlen2]
      simp only [List.sum_append, List.zipWith_cons_cons, List.zipWith_nil_left, List.sum_cons,
        List.sum_nil, add_zero, Nat.cast_add]
      have hmin : jsMin (num (x : ℚ)) (num (y : ℚ)) = num ((min x y : Nat) : ℚ) := by
        simp only [jsMin, JSNum.lt]
        by_cases hxy : y < x
        · have : (y : ℚ) < x := by exact_mod_cast hxy
          simp [this, Nat.min_eq_right hxy.le]
        · have : ¬ (y : ℚ) < x := by exact_mod_cast hxy
          simp [this, Nat.min_eq_left (Nat.le_of_not_lt hxy)]
      have hmax : jsMax (num (x : ℚ)) (num (y : ℚ)) = num ((max x y : Nat) : ℚ) := by
        simp only [jsMax, JSNum.lt]
        by_cases hxy : x < y
        · have : (x : ℚ) < y := by exact_mod_cast hxy
          simp [this, Nat.max_eq_right hxy.le]
        · have : ¬ (x : ℚ) < y := by exact_mod_cast hxy
          simp [this, Nat.max_eq_left (Nat.le_of_not_lt hxy)]
      rw [hmin, hmax]
      rfl


/-- One step of the pixel-by-pixel loop. -/
theorem histFrom_pixel (h : List Cell) (v0 v1 v2 v3 : Nat) (rest : Buffer) :
    histFrom h (v0 :: v1 :: v2 :: v3 :: rest) = histFrom (histIncr h (bucketOf v0 v1 v2)) rest := by
  rw [histFrom]

/-! ## Uniform buffers -/

/-- A uniform buffer of `n` pixels has `4 * n` bytes. -/
theorem length_solid (r g b a n : Nat) : (solid r g b a n).length = 4 * n := by
  induction n with
  | zero => rfl
  | succ n ih =>
    rw [solid, List.length_cons, List.length_cons, List.length_cons, List.length_cons, ih]
    omega

/-- The bytes of a uniform buffer are the four channel values. -/
theorem mem_solid (r g b a n v : Nat) (hv : v ∈ solid r g b a n) :
    v = r ∨ v = g ∨ v = b ∨ v = a := by
  induction n with
  | zero => simp [solid] at hv
  | succ n ih =>
    rw [solid] at hv
    simp only [List.mem_cons] at hv
    rcases hv with h | h | h | h | h
    · exact Or.inl h
    · exact Or.inr (Or.inl h)
    · exact Or.inr (Or.inr (Or.inl h))
    · exact Or.inr (Or.inr (Or.inr h))
    · exact ih h

/-- The colour channels of the `k`-th pixel of a uniform buffer. -/
theorem getElem?_solid (r g b a : Nat) : ∀ (n k : Nat), k < n →
    (solid r g b a n)[4 * k]? = some r ∧ (solid r g b a n)[4 * k + 1]? = some g
      ∧ (solid r g b a n)[4 * k + 2]? = some b := by
  intro n
  induction n with
  | zero => intro k hk; omega
  | succ n ih =>
    intro k hk
    rw [solid]
    cases k with
    | zero => exact ⟨rfl, rfl, rfl⟩
    | succ k =>
      have h := ih k (by omega)
      have e0 : 4 * (k + 1) = 4 * k + 1 + 1 + 1 + 1 := by ring
      have e2 : 4 * k + 1 + 1 + 1 + 1 + 2 = 4 * k + 2 + 1 + 1 + 1 + 1 := by ring
      rw [e0, e2]
      simp only [List.getElem?_cons_succ]
      exact h

/-- A histogram on which the bucket of the colour is a fixed point of the
increment stays the same over a run of pixels of that colour. -/
theorem histFrom_solid_fixed (r g b a : Nat) (h : List Cell)
    (hfix : histIncr h (bucketOf r g b) = h) (n : Nat) :
    histFrom h (solid r g b a n) = h := by
  induction n with
  | zero => simp [solid, histFrom]
  | succ n ih => rw [solid, histFrom_pixel, hfix, ih]

/-- A run of black pixels is counted in bucket 0. -/
theorem histFrom_solid_black (a n : Nat) : ∀ (c : Nat) (t : List Cell),
    histFrom (Cell.count c :: t) (solid 0 0 0 a n) = Cell.count (c + n) :: t := by
  induction n with
  | zero => intro c t; simp [solid, histFrom]
  | succ n ih =>
    intro c t
    rw [solid, histFrom_pixel]
    have hb : bucketOf 0 0 0 = 0 := by decide
    have hstep : histIncr (Cell.count c :: t) 0 = Cell.count (c + 1) :: t := by
      simp [histIncr, Cell.incr]
    rw [hb, hstep, ih]
    congr 2
    omega

/-- The white buffer has 160000 bytes. -/
theorem whiteBuffer_length : whiteBuffer.length = 160000 := by
  rw [whiteBuffer, length_solid]

/-- The black buffer has 160000 bytes. -/
theorem blackBuffer_length : blackBuffer.length = 160000 := by
  rw [blackBuffer, length_solid]

/-- The red-dotted buffer has 160000 bytes. -/
theorem redDotBuffer_length : redDotBuffer.length = 160000 := by
  rw [redDotBuffer, List.length_cons, List.length_cons, List.length_cons, List.length_cons,
    length_solid]

/-- The white buffer is canonical. -/
theorem isCanonical_white : IsCanonical whiteBuffer := by
  refine ⟨whiteBuffer_length, ?_⟩
  intro v hv
  have := mem_solid _ _ _ _ _ _ hv
  omega

/-- The black buffer is canonical. -/
theorem isCanonical_black : IsCanonical blackBuffer := by
  refine ⟨blackBuffer_length, ?_⟩
  intro v hv
  have := mem_solid _ _ _ _ _ _ hv
  omega

/-- The red-dotted buffer is canonical. -/
theorem isCanonical_redDot : IsCanonical redDotBuffer := by
  refine ⟨redDotBuffer_length, ?_⟩
  intro v hv
  rw [redDotBuffer] at hv
  simp only [List.mem_cons] at hv
  rcases hv with h | h | h | h | h
  · omega
  · omega
  · omega
  · omega
  · have := mem_solid _ _ _ _ _ _ h
    omega

/-- The histogram of the white buffer: the array has grown to 71 elements, its
last element is NaN, and none of the 32 buckets has counted a pixel. -/
theorem calculateHistogram_white :
    calculateHistogram whiteBuffer
      = List.replicate 32 (Cell.count 0) ++ List.replicate 38 Cell.hole ++ [Cell.nan] := by
  have hlen : whiteBuffer.length % 4 = 0 := by rw [whiteBuffer_length]
  rw [calculateHistogram_eq_histFrom _ hlen]
  have h1 : whiteBuffer = solid 255 255 255 255 (39999 + 1) := rfl
  rw [h1, solid, histFrom_pixel]
  have h2 : histIncr (List.replicate 32 (Cell.count 0)) (bucketOf 255 255 255)
      = List.replicate 32 (Cell.count 0) ++ List.replicate 38 Cell.hole ++ [Cell.nan] := by
    decide
  rw [h2]
  exact histFrom_solid_fixed 255 255 255 255 _ (by rfl) 39999

/-- The histogram of the black buffer: every pixel in bucket 0. -/
theorem calculateHistogram_black :
    calculateHistogram blackBuffer = Cell.count 40000 :: List.replicate 31 (Cell.count 0) := by
  have hlen : blackBuffer.length % 4 = 0 := by rw [blackBuffer_length]
  rw [calculateHistogram_eq_histFrom _ hlen]
  have h2 : List.replicate 32 (Cell.count 0) = Cell.count 0 :: List.replicate 31 (Cell.count 0) := by
    decide
  rw [blackBuffer, h2, histFrom_solid_black]

/-- The histogram of the red-dotted buffer: the red pixel falls in bucket 32,
past the end of the array. -/
theorem calculateHistogram_redDot :
    calculateHistogram redDotBuffer
      = Cell.count 39999 :: (List.replicate 31 (Cell.count 0) ++ [Cell.nan]) := by
  have hlen : redDotBuffer.length % 4 = 0 := by rw [redDotBuffer_length]
  rw [calculateHistogram_eq_histFrom _ hlen, redDotBuffer, histFrom_pixel]
  have h2 : histIncr (List.replicate 32 (Cell.count 0)) (bucketOf 128 0 0)
      = Cell.count 0 :: (List.replicate 31 (Cell.count 0) ++ [Cell.nan]) := by
    decide
  rw [h2, histFrom_solid_black]

/-- The colour metric of the white buffer against any buffer. -/
theorem colorDistribution_white (data2 : Buffer) :
    calculateColorDistribution whiteBuffer data2 = num 0 := by
  apply colorDistribution_nan whiteBuffer data2 70
  · rw [calculateHistogram_white]; decide
  · rw [calculateHistogram_white]; decide

/-- The colour metric with the red-dotted buffer first. -/
theorem colorDistribution_redDot_black :
    calculateColorDistribution redDotBuffer blackBuffer = num 0 := by
  apply colorDistribution_nan redDotBuffer blackBuffer 32
  · rw [calculateHistogram_redDot]; decide
  · rw [calculateHistogram_redDot]; decide

/-- The colour metric with the black buffer first. -/
theorem colorDistribution_black_redDot :
    calculateColorDistribution blackBuffer redDotBuffer = num (39999 / 40000) := by
  unfold calculateColorDistribution
  simp only
  rw [calculateHistogram_black, calculateHistogram_redDot, colorSums_eq_colorLoop]
  have e1 : Cell.count 40000 :: List.replicate 31 (Cell.count 0)
      = (40000 :: List.replicate 31 0).map Cell.count ++ [] := by decide
  have e2 : Cell.count 39999 :: (List.replicate 31 (Cell.count 0) ++ [Cell.nan])
      = (39999 :: List.replicate 31 0).map Cell.count ++ [Cell.nan] := by decide
  have e3 : (Cell.count 40000 :: List.replicate 31 (Cell.count 0)).length
      = (40000 :: List.replicate 31 0).length := by decide
  rw [e3, e1, e2, colorLoop_counts _ _ _ _ (by decide)]
  have s1 : (List.zipWith min (40000 :: List.replicate 31 0) (39999 :: List.replicate 31 0)).sum
      = 39999 := by decide
  have s2 : (List.zipWith max (40000 :: List.replicate 31 0) (39999 :: List.replicate 31 0)).sum
      = 40000 := by decide
  rw [s1, s2]
  simp [JSNum.gt, JSNum.lt, JSNum.div]

/-! ## Scores of the white and black images -/

/-- Reading the colour channels of a pixel of a uniform buffer as numbers. -/
theorem readNum_solid (r g b a n k : Nat) (hk : k < n) :
    readNum (solid r g b a n) (k * 4) = num r ∧ readNum (solid r g b a n) (k * 4 + 1) = num g
      ∧ readNum (solid r g b a n) (k * 4 + 2) = num b := by
  obtain ⟨h0, h1, h2⟩ := getElem?_solid r g b a n k hk
  rw [Nat.mul_comm] at h0 h1 h2
  unfold readNum
  rw [h0, h1, h2]
  exact ⟨rfl, rfl, rfl⟩

/-- Edge strength of a block of a uniform buffer that lies inside the buffer. -/
theorem detectEdges_solid (r g b a n x y width : Nat)
    (hin : (y + 7) * width + (x + 7) < n) :
    detectEdges (solid r g b a n) x y 8 width = num (((r + g + b : Nat) : ℚ) / 765) := by
  have hidx : ∀ dy dx : Nat, dy < 8 → dx < 8 → (y + dy) * width + (x + dx) < n := by
    intro dy dx hdy hdx
    have h1 : (y + dy) * width ≤ (y + 7) * width := Nat.mul_le_mul_right _ (by omega)
    omega
  have hinner : ∀ (dy : Nat), dy < 8 → ∀ (l : List Nat) (q : ℚ), (∀ dx ∈ l, dx < 8) →
      l.foldl (fun acc dx =>
        if ((y + dy) * width + (x + dx)) * 4 < (solid r g b a n).length then
          JSNum.add acc (JSNum.div
            (JSNum.add (JSNum.add (readNum (solid r g b a n) (((y + dy) * width + (x + dx)) * 4))
              (readNum (solid r g b a n) (((y + dy) * width + (x + dx)) * 4 + 1)))
              (readNum (solid r g b a n) (((y + dy) * width + (x + dx)) * 4 + 2)))
            (num 3))
        else acc) (num q) = num (q + l.length * (((r + g + b : Nat) : ℚ) / 3)) := by
    intro dy hdy l
    induction l with
    | nil => intro q _; simp
    | cons dx l ih =>
      intro q hl
      have hdx : dx < 8 := hl dx (List.mem_cons_self _ _)
      have h2 := hidx dy dx hdy hdx
      obtain ⟨r0, r1, r2⟩ := readNum_solid r g b a n _ h2
      rw [List.foldl_cons, length_solid, if_pos (by omega), r0, r1, r2]
      have hb : JSNum.add (num q) (JSNum.div (JSNum.add (JSNum.add (num (r : ℚ)) (num (g : ℚ)))
          (num (b : ℚ))) (num 3)) = num (q + ((r + g + b : Nat) : ℚ) / 3) := by
        simp only [JSNum.add, JSNum.div]
        norm_num
      rw [hb]
      have := ih (q + ((r + g + b : Nat) : ℚ) / 3)
        (fun dx hdx => hl dx (List.mem_cons_of_mem _ hdx))
      simp only [length_solid] at this
      rw [this]
      simp only [List.length_cons, Nat.cast_add, Nat.cast_one]
      congr 1
      ring
  have houter : ∀ (l : List Nat) (q : ℚ), (∀ dy ∈ l, dy < 8) →
      l.foldl (fun acc dy => (List.range 8).foldl (fun acc dx =>
        if ((y + dy) * width + (x + dx)) * 4 < (solid r g b a n).length then
          JSNum.add acc (JSNum.div
            (JSNum.add (JSNum.add (readNum (solid r g b a n) (((y + dy) * width + (x + dx)) * 4))
              (readNum (solid r g b a n) (((y + dy) * width + (x + dx)) * 4 + 1)))
              (readNum (solid r g b a n) (((y + dy) * width + (x + dx)) * 4 + 2)))
            (num 3))
        else acc) acc) (num q) = num (q + l.length * (8 * (((r + g + b : Nat) : ℚ) / 3))) := by
    intro l
    induction l with
    | nil => intro q _; simp
    | cons dy l ih =>
      intro q hl
      have hdy : dy < 8 := hl dy (List.mem_cons_self _ _)
      rw [List.foldl_cons, hinner dy hdy (List.range 8) q (fun dx hdx => List.mem_range.1 hdx),
        ih _ (fun dy hdy => hl dy (List.mem_cons_of_mem _ hdy))]
      simp only [List.length_range, List.length_cons, Nat.cast_add, Nat.cast_one, Nat.cast_ofNat]
      congr 1
      ring
  unfold detectEdges
  simp only
  rw [houter (List.range 8) 0 (fun dy hdy => List.mem_range.1 hdy)]
  simp only [JSNum.div, List.length_range]
  norm_num
  ring

/-- No sampled pixel of the white buffer is similar to the black one. -/
theorem pixelSimilarity_white_black : calculatePixelSimilarity whiteBuffer blackBuffer = num 0 := by
  unfold calculatePixelSimilarity
  rw [pixelCounts_eq]
  have hnone : (stepIndices whiteBuffer.length 16).countP (pixelSimilar whiteBuffer blackBuffer)
      = 0 := by
    rw [List.countP_eq_zero]
    intro i hi
    rw [whiteBuffer_length] at hi
    obtain ⟨hlt, k, rfl⟩ := (mem_stepIndices (by norm_num)).1 hi
    have hk : 4 * k < 200 * 200 := by omega
    obtain ⟨w0, w1, w2⟩ := getElem?_solid 255 255 255 255 (200 * 200) (4 * k) hk
    obtain ⟨b0, b1, b2⟩ := getElem?_solid 0 0 0 255 (200 * 200) (4 * k) hk
    have e : 4 * (4 * k) = 16 * k := by ring
    rw [e] at w0 w1 w2 b0 b1 b2
    rw [pixelSimilar, whiteBuffer, blackBuffer, w0, w1, w2, b0, b1, b2]
    decide
  rw [hnone, length_stepIndices, whiteBuffer_length]
  simp [JSNum.div]

/-- No block of the white buffer matches the black one. -/
theorem structuralSimilarity_white_black :
    calculateStructuralSimilarity whiteBuffer blackBuffer 200 200 = num 0 := by
  unfold calculateStructuralSimilarity
  rw [structuralCounts_eq]
  have hnone : ((stepIndices (200 - 8) 8).map (fun y =>
      (stepIndices (200 - 8) 8).countP
        (fun x => blockMatches whiteBuffer blackBuffer x y 8 200))).sum = 0 := by
    apply List.sum_eq_zero
    intro c hc
    obtain ⟨y, hy, rfl⟩ := List.mem_map.1 hc
    rw [List.countP_eq_zero]
    intro x hx
    have hy2 := ((mem_stepIndices (by norm_num)).1 hy).1
    have hx2 := ((mem_stepIndices (by norm_num)).1 hx).1
    rw [blockMatches, whiteBuffer, blackBuffer]
    rw [detectEdges_solid _ _ _ _ _ _ _ _ (by omega), detectEdges_solid _ _ _ _ _ _ _ _ (by omega)]
    simp [JSNum.sub, JSNum.neg, JSNum.add, JSNum.abs, JSNum.lt]
    norm_num
  rw [hnone, length_stepIndices]
  simp [JSNum.div]

/-- The white buffer is not empty and holds whole pixels. -/
theorem whiteBuffer_shape : whiteBuffer ≠ [] ∧ whiteBuffer.length % 4 = 0 := by
  constructor
  · intro h
    have hlen := whiteBuffer_length
    rw [h] at hlen
    simp at hlen
  · rw [whiteBuffer_length]

/-- Score of the white image against itself: the pixel and structural metrics
are 1 and the colour metric is 0. -/
theorem compareImages_white : compareImages whiteBuffer whiteBuffer = num (4 / 5) := by
  unfold compareImages
  simp only
  rw [pixelSimilarity_self _ whiteBuffer_shape.1 whiteBuffer_shape.2,
    structuralSimilarity_self _ whiteBuffer_shape.2 200 200 (by norm_num) (by norm_num),
    colorDistribution_white, weightedSimilarity_num]
  norm_num

/-- Score of the white image against the black one. -/
theorem compareImages_white_black : compareImages whiteBuffer blackBuffer = num 0 := by
  unfold compareImages
  simp only
  rw [pixelSimilarity_white_black, structuralSimilarity_white_black,
    colorDistribution_white, weightedSimilarity_num]
  norm_num

/-! ## The classifier -/


/-- Every comparison made by the loop over the normal images is with a normal image. -/
theorem scanNormal_trace (thresholds : List (String × JSNum)) (tweetImg : Buffer)
    (l : List Buffer) : ∀ e ∈ (scanNormal thresholds tweetImg l).2, e.1 = RefKind.normal := by
  induction l with
  | nil => simp [scanNormal]
  | cons n l ih =>
    intro e he
    unfold scanNormal at he
    simp only at he
    split at he
    · simp only [List.mem_singleton] at he
      rw [he]
    · rcases List.mem_cons.1 he with h | h
      · rw [h]
      · exact ih e h

/-- The loop over the normal images returns exactly when some image scores above
the normal threshold. -/
theorem scanNormal_fst (thresholds : List (String × JSNum)) (tweetImg : Buffer)
    (l : List Buffer) :
    (scanNormal thresholds tweetImg l).1
      = l.any (fun n => exceeds (compareImages tweetImg n) (getThreshold thresholds "normal")) := by
  induction l with
  | nil => simp [scanNormal]
  | cons n l ih =>
    unfold scanNormal
    simp only
    split
    · rename_i h
      simp [h]
    · rename_i h
      simp [h, ih]

/-- The loop over the images of one company returns exactly when some image
scores above the threshold of the company. -/
theorem scanAdImages_fst (thresholds : List (String × JSNum)) (tweetImg : Buffer)
    (company : String) (l : List Buffer) :
    (scanAdImages thresholds tweetImg company l).1
      = adCategoryMatches thresholds tweetImg (company, l) := by
  unfold adCategoryMatches
  induction l with
  | nil => simp [scanAdImages]
  | cons n l ih =>
    unfold scanAdImages
    simp only
    split
    · rename_i h
      simp [h]
    · rename_i h
      simp only [List.any_cons, h, Bool.false_or]
      exact ih

/-- The loop over the companies returns the first one with a matching image. -/
theorem scanAdSets_fst (thresholds : List (String × JSNum)) (tweetImg : Buffer)
    (sets : List (String × List Buffer)) :
    (scanAdSets thresholds tweetImg sets).1
      = (sets.find? (adCategoryMatches thresholds tweetImg)).map (fun e => e.1) := by
  induction sets with
  | nil => simp [scanAdSets]
  | cons e sets ih =>
    obtain ⟨company, adImages⟩ := e
    unfold scanAdSets
    simp only
    rw [scanAdImages_fst]
    by_cases h : adCategoryMatches thresholds tweetImg (company, adImages) = true
    · simp [h, List.find?_cons]
    · simp only [Bool.not_eq_true] at h
      simp [h, List.find?_cons, ih]


/-- The normal threshold set by the constructor. -/
theorem getThreshold_normal :
    getThreshold constructorThresholds "normal" = JSValue.number (num (1 / 4)) := by
  simp [getThreshold, constructorThresholds, List.lookup]

/-- The threshold `predict` uses for `stake` with the table of the constructor. -/
theorem companyThreshold_stake :
    companyThreshold constructorThresholds "stake" = JSValue.number (num (7 / 20)) := by
  simp [companyThreshold, getThreshold, constructorThresholds, List.lookup, jsOr,
    JSValue.truthy, JSNum.truthy]

/-- The test `similarity > threshold` on two finite numbers. -/
theorem exceeds_num (a b : ℚ) :
    exceeds (num a) (JSValue.number (num b)) = decide (b < a) := rfl

/-! ## The claims -/

/-- C1 (the code departs from the claim). The colour metric of the opaque white
canonical buffer against itself is 0, not 1: its pixels fall in bucket 70, the
histogram array grows past its 32 buckets, and the sums become NaN. -/
theorem colorDistribution_identical_white_is_zero :
    IsCanonical whiteBuffer ∧ calculateColorDistribution whiteBuffer whiteBuffer = num 0 ∧
      calculateColorDistribution whiteBuffer whiteBuffer ≠ num 1 := by
  refine ⟨isCanonical_white, colorDistribution_white _, ?_⟩
  rw [colorDistribution_white]
  simp

/-- C2 (the code departs from the claim). For the white pixel the composite
index is 2263, above 2047, and the bucket is 70, above 31; in the histogram of
the white canonical buffer no pixel is counted in any of the 32 buckets. -/
theorem histogram_bucket_past_the_array :
    compositeIndex 255 255 255 = 2263 ∧ bucketOf 255 255 255 = 70 ∧
      calculateHistogram whiteBuffer
        = List.replicate 32 (Cell.count 0) ++ List.replicate 38 Cell.hole ++ [Cell.nan] :=
  ⟨by decide, by decide, calculateHistogram_white⟩

/-- C3 (the code departs from the claim). On the canonical 200 x 200 canvas
`calculateStructuralSimilarity` examines 24 * 24 = 576 blocks whatever the two
buffers are, not 25 * 25 = 625: the loops stop before the last full block. -/
theorem structuralSimilarity_examines_576_blocks (data1 data2 : Buffer) :
    (structuralCounts data1 data2 200 200).2 = 576 ∧
      (structuralCounts data1 data2 200 200).2 ≠ (200 / 8) * (200 / 8) := by
  rw [structuralCounts_total]
  constructor <;> decide

/-- C4. When the candidate scores above the normal threshold against some
normal image, `predict` returns not-ad with no company, and every image it has
compared is a normal one, whatever the advertiser lists hold. -/
theorem predict_normal_match_short_circuits (d : Detector) (tweetImg : Buffer)
    (others : List Buffer) (videoResult : Option ClassificationResult)
    (h : ∃ n ∈ d.normalImages,
      exceeds (compareImages tweetImg n) (getThreshold d.thresholds "normal") = true) :
    predict d (tweetImg :: others) videoResult = ⟨false, none⟩ ∧
      ∀ e ∈ (predictTrace d (tweetImg :: others) videoResult).2, e.1 = RefKind.normal := by
  have hn : (scanNormal d.thresholds tweetImg d.normalImages).1 = true := by
    rw [scanNormal_fst, List.any_eq_true]
    exact h
  unfold predict predictTrace
  simp only [hn, if_true]
  exact ⟨trivial, scanNormal_trace _ _ _⟩

/-- C4, instance: the white image is both the normal reference and the `stake`
reference; it scores 4/5 against itself, above both thresholds, and `predict`
answers not-ad having compared normal images only. -/
theorem predict_normal_match_short_circuits_witness :
    (∃ n ∈ sameImageDetector.normalImages,
      exceeds (compareImages whiteBuffer n)
        (getThreshold sameImageDetector.thresholds "normal") = true) ∧
    exceeds (compareImages whiteBuffer whiteBuffer)
      (companyThreshold sameImageDetector.thresholds "stake") = true ∧
    predict sameImageDetector [whiteBuffer] none = ⟨false, none⟩ ∧
    ∀ e ∈ (predictTrace sameImageDetector [whiteBuffer] none).2, e.1 = RefKind.normal := by
  have h : ∃ n ∈ sameImageDetector.normalImages,
      exceeds (compareImages whiteBuffer n)
        (getThreshold sameImageDetector.thresholds "normal") = true := by
    refine ⟨whiteBuffer, List.mem_singleton.2 rfl, ?_⟩
    show exceeds (compareImages whiteBuffer whiteBuffer)
      (getThreshold constructorThresholds "normal") = true
    rw [compareImages_white, getThreshold_normal, exceeds_num]
    norm_num
  have hs : exceeds (compareImages whiteBuffer whiteBuffer)
      (companyThreshold sameImageDetector.thresholds "stake") = true := by
    show exceeds (compareImages whiteBuffer whiteBuffer)
      (companyThreshold constructorThresholds "stake") = true
    rw [compareImages_white, companyThreshold_stake, exceeds_num]
    norm_num
  exact ⟨h, hs, predict_normal_match_short_circuits sameImageDetector whiteBuffer [] none h⟩

/-- The ad step of `predict` in terms of the threshold it computes itself: when
the candidate scores above the normal threshold against no normal image,
`predict` returns ad with the first company, in the order of the entries of
`adSets`, that has an image scoring above `thresholds[company] ||
thresholds.default`, and not-ad with no company when there is none. -/
theorem predict_first_matching_company (d : Detector) (tweetImg : Buffer)
    (others : List Buffer) (videoResult : Option ClassificationResult)
    (h : ∀ n ∈ d.normalImages,
      exceeds (compareImages tweetImg n) (getThreshold d.thresholds "normal") = false) :
    predict d (tweetImg :: others) videoResult =
      match d.adSets.find? (adCategoryMatches d.thresholds tweetImg) with
      | some entry => ⟨true, some entry.1⟩
      | none => ⟨false, none⟩ := by
  have hn : (scanNormal d.thresholds tweetImg d.normalImages).1 = false := by
    rw [scanNormal_fst, List.any_eq_false]
    intro n hmem
    simp [h n hmem]
  unfold predict predictTrace
  simp only [hn]
  rw [scanAdSets_fst]
  cases d.adSets.find? (adCategoryMatches d.thresholds tweetImg) <;> simp

/-- Instance of the ad step: with a black normal reference and a white `stake`
reference, the white candidate scores 0 against the normal image and `predict`
answers ad for `stake`. -/
theorem predict_first_matching_company_witness :
    (∀ n ∈ blackNormalDetector.normalImages,
      exceeds (compareImages whiteBuffer n)
        (getThreshold blackNormalDetector.thresholds "normal") = false) ∧
    predict blackNormalDetector [whiteBuffer] none = ⟨true, some "stake"⟩ := by
  have h : ∀ n ∈ blackNormalDetector.normalImages,
      exceeds (compareImages whiteBuffer n)
        (getThreshold blackNormalDetector.thresholds "normal") = false := by
    intro n hn
    have hn2 : n = blackBuffer := List.mem_singleton.1 hn
    subst hn2
    show exceeds (compareImages whiteBuffer blackBuffer)
      (getThreshold constructorThresholds "normal") = false
    rw [compareImages_white_black, getThreshold_normal, exceeds_num]
    norm_num
  have hm : adCategoryMatches blackNormalDetector.thresholds whiteBuffer ("stake", [whiteBuffer])
      = true := by
    show ([whiteBuffer].any (fun adImg => exceeds (compareImages whiteBuffer adImg)
      (companyThreshold constructorThresholds "stake"))) = true
    rw [List.any_cons, compareImages_white, companyThreshold_stake, exceeds_num]
    norm_num
  have hsets : blackNormalDetector.adSets = [("stake", [whiteBuffer])] := rfl
  have key := predict_first_matching_company blackNormalDetector whiteBuffer [] none h
  rw [hsets, List.find?_cons, hm] at key
  exact ⟨h, key⟩

/-- C6 (the code departs from the claim). With an explicit entry 0 for `stake`,
the threshold `predict` compares against is the default 1/4, not the entry. -/
theorem companyThreshold_zero_entry_uses_default :
    getThreshold zeroStakeThresholds "stake" = JSValue.number (num 0) ∧
      companyThreshold zeroStakeThresholds "stake" = JSValue.number (num (1 / 4)) := by
  constructor
  · simp [getThreshold, zeroStakeThresholds, List.lookup]
  · simp [companyThreshold, getThreshold, zeroStakeThresholds, List.lookup, jsOr,
      JSValue.truthy, JSNum.truthy]

/-- C7. For sub-metric scores in [0, 1] the weighted similarity of
`compareImages` is a finite number in [0, 1], and it is 1 exactly when the three
scores are 1. -/
theorem weightedSimilarity_unit_interval (p s c : ℚ)
    (hp : 0 ≤ p ∧ p ≤ 1) (hs : 0 ≤ s ∧ s ≤ 1) (hc : 0 ≤ c ∧ c ≤ 1) :
    ∃ w : ℚ, weightedSimilarity (num p) (num s) (num c) = num w ∧ 0 ≤ w ∧ w ≤ 1 ∧
      (w = 1 ↔ p = 1 ∧ s = 1 ∧ c = 1) := by
  refine ⟨p * (2 / 5) + s * (2 / 5) + c * (1 / 5), weightedSimilarity_num p s c, ?_, ?_, ?_⟩
  · linarith [hp.1, hs.1, hc.1]
  · linarith [hp.2, hs.2, hc.2]
  · constructor
    · intro h
      refine ⟨?_, ?_, ?_⟩ <;> linarith [hp.1, hs.1, hc.1, hp.2, hs.2, hc.2]
    · rintro ⟨rfl, rfl, rfl⟩
      norm_num

/-- C7, instance: the scores 1, 1/2 and 0. -/
theorem weightedSimilarity_unit_interval_witness :
    ∃ w : ℚ, weightedSimilarity (num 1) (num (1 / 2)) (num 0) = num w ∧ 0 ≤ w ∧ w ≤ 1 ∧
      (w = 1 ↔ (1 : ℚ) = 1 ∧ (1 / 2 : ℚ) = 1 ∧ (0 : ℚ) = 1) :=
  weightedSimilarity_unit_interval 1 (1 / 2) 0 (by norm_num) (by norm_num) (by norm_num)

/-- C8. For a non-empty buffer whose length is a multiple of 4,
`calculatePixelSimilarity(a, a)` is exactly 1, for background-like pixels and
for the others. -/
theorem pixel_similarity_identical_buffers (a : Buffer) (hne : a ≠ []) (h4 : a.length % 4 = 0) :
    calculatePixelSimilarity a a = num 1 :=
  pixelSimilarity_self a hne h4

/-- C8, instance: one mid-grey pixel, which is not background-like. -/
theorem pixel_similarity_identical_buffers_witness :
    calculatePixelSimilarity [100, 100, 100, 255] [100, 100, 100, 255] = num 1 :=
  pixel_similarity_identical_buffers [100, 100, 100, 255] (by decide) (by decide)

/-- C9. For buffers of the same length `calculatePixelSimilarity` does not
depend on the order of its arguments. -/
theorem pixel_similarity_symmetric (a b : Buffer) (hlen : a.length = b.length) :
    calculatePixelSimilarity a b = calculatePixelSimilarity b a := by
  unfold calculatePixelSimilarity
  rw [pixelCounts_eq, pixelCounts_eq, hlen]
  have : pixelSimilar a b = pixelSimilar b a := funext (pixelSimilar_comm a b)
  rw [this]

/-- C9, instance: a black pixel and a white pixel. -/
theorem pixel_similarity_symmetric_witness :
    calculatePixelSimilarity [0, 0, 0, 255] [255, 255, 255, 255]
      = calculatePixelSimilarity [255, 255, 255, 255] [0, 0, 0, 255] :=
  pixel_similarity_symmetric [0, 0, 0, 255] [255, 255, 255, 255] (by decide)

/-- C10 (the code departs from the claim). On the opaque black canonical buffer
and the same buffer with one dark red pixel, `calculateColorDistribution` gives
39999/40000 in one order and 0 in the other. -/
theorem colorDistribution_depends_on_order :
    IsCanonical blackBuffer ∧ IsCanonical redDotBuffer ∧
      calculateColorDistribution blackBuffer redDotBuffer = num (39999 / 40000) ∧
      calculateColorDistribution redDotBuffer blackBuffer = num 0 ∧
      calculateColorDistribution blackBuffer redDotBuffer
        ≠ calculateColorDistribution redDotBuffer blackBuffer := by
  refine ⟨isCanonical_black, isCanonical_redDot, colorDistribution_black_redDot,
    colorDistribution_redDot_black, ?_⟩
  rw [colorDistribution_black_redDot, colorDistribution_redDot_black]
  simp


/-! ## Ranges of the metrics -/

/-- A counter divided by a positive counter that bounds it is a number in [0, 1]. -/
theorem div_counts_range {m n : Nat} (hmn : m ≤ n) (hn : 0 < n) :
    ∃ q : ℚ, JSNum.div (num m) (num n) = num q ∧ 0 ≤ q ∧ q ≤ 1 := by
  have h : (n : ℚ) ≠ 0 := by exact_mod_cast hn.ne.symm
  have hpos : (0 : ℚ) < n := by exact_mod_cast hn
  refine ⟨(m : ℚ) / n, ?_, ?_, ?_⟩
  · simp [JSNum.div, h]
  · exact div_nonneg (Nat.cast_nonneg m) (Nat.cast_nonneg n)
  · rw [div_le_one hpos]
    exact_mod_cast hmn

/-- Pixel similarity with a non-empty first buffer is a number in [0, 1]. -/
theorem pixelSimilarity_range (data1 data2 : Buffer) (hne : data1 ≠ []) :
    ∃ q : ℚ, calculatePixelSimilarity data1 data2 = num q ∧ 0 ≤ q ∧ q ≤ 1 := by
  unfold calculatePixelSimilarity
  rw [pixelCounts_eq]
  apply div_counts_range
  · exact List.countP_le_length _
  · rw [length_stepIndices]
    have : 0 < data1.length := List.length_pos.2 hne
    omega

/-- The match counter of the structural loops never exceeds the total counter. -/
theorem structuralCounts_le (data1 data2 : Buffer) (width height : Nat) :
    (structuralCounts data1 data2 width height).1 ≤ (structuralCounts data1 data2 width height).2 := by
  unfold structuralCounts
  simp only
  apply foldl_invariant (fun st : Nat × Nat => st.1 ≤ st.2)
  · exact Nat.le_refl 0
  · intro st y hst
    apply foldl_invariant (fun st : Nat × Nat => st.1 ≤ st.2)
    · exact hst
    · intro st x hst
      by_cases hb : blockMatches data1 data2 x y 8 width = true
      · simp only [hb, if_true]
        omega
      · simp only [hb]
        show st.1 ≤ st.2 + 1
        omega

/-- Structural similarity on a canvas wider and higher than one block is a
number in [0, 1]. -/
theorem structuralSimilarity_range (data1 data2 : Buffer) (width height : Nat)
    (hw : 8 < width) (hh : 8 < height) :
    ∃ q : ℚ, calculateStructuralSimilarity data1 data2 width height = num q ∧ 0 ≤ q ∧ q ≤ 1 := by
  unfold calculateStructuralSimilarity
  apply div_counts_range (structuralCounts_le data1 data2 width height)
  rw [structuralCounts_total]
  apply Nat.mul_pos
  · apply Nat.div_pos <;> omega
  · apply Nat.div_pos <;> omega

/-- A bucket read is a natural number or NaN. -/
theorem cellNum_cases (c : Option Cell) : cellNum c = nan ∨ ∃ n : Nat, cellNum c = num n := by
  cases c with
  | none => exact Or.inl rfl
  | some c =>
    cases c with
    | count n => exact Or.inr ⟨n, rfl⟩
    | nan => exact Or.inl rfl
    | hole => exact Or.inl rfl

/-- The two sums of the colour metric are both NaN, or finite with
`0 ≤ intersection ≤ union`. -/
theorem colorSums_range (h1 h2 : List Cell) :
    colorSums h1 h2 = (nan, nan) ∨
      ∃ i u : ℚ, colorSums h1 h2 = (num i, num u) ∧ 0 ≤ i ∧ i ≤ u := by
  unfold colorSums
  apply foldl_invariant (fun st : JSNum × JSNum =>
    st = (nan, nan) ∨ ∃ i u : ℚ, st = (num i, num u) ∧ 0 ≤ i ∧ i ≤ u)
  · exact Or.inr ⟨0, 0, rfl, le_refl _, le_refl _⟩
  · intro st k hst
    have hnanl : ∀ x : JSNum, JSNum.add nan x = nan := by intro x; cases x <;> rfl
    have hnanr : ∀ x : JSNum, JSNum.add x nan = nan := by intro x; cases x <;> rfl
    rcases cellNum_cases h1[k]? with hx | ⟨a, hx⟩
    · left
      have e1 : jsMin (cellNum h1[k]?) (cellNum h2[k]?) = nan := by
        rw [hx]; cases cellNum h2[k]? <;> rfl
      have e2 : jsMax (cellNum h1[k]?) (cellNum h2[k]?) = nan := by
        rw [hx]; cases cellNum h2[k]? <;> rfl
      simp only [e1, e2, hnanr]
    · rcases cellNum_cases h2[k]? with hy | ⟨b, hy⟩
      · left
        have e1 : jsMin (cellNum h1[k]?) (cellNum h2[k]?) = nan := by rw [hx, hy]; rfl
        have e2 : jsMax (cellNum h1[k]?) (cellNum h2[k]?) = nan := by rw [hx, hy]; rfl
        simp only [e1, e2, hnanr]
      · rcases hst with hst | ⟨i, u, hst, hi, hiu⟩
        · left
          rw [hst]
          simp only [hnanl]
        · right
          have hmin : jsMin (num (a : ℚ)) (num (b : ℚ)) = num (min (a : ℚ) b) := by
            simp only [jsMin, JSNum.lt]
            by_cases hab : (b : ℚ) < a
            · simp [hab, min_eq_right hab.le]
            · simp [hab, min_eq_left (not_lt.1 hab)]
          have hmax : jsMax (num (a : ℚ)) (num (b : ℚ)) = num (max (a : ℚ) b) := by
            simp only [jsMax, JSNum.lt]
            by_cases hab : (a : ℚ) < b
            · simp [hab, max_eq_right hab.le]
            · simp [hab, max_eq_left (not_lt.1 hab)]
          rw [hst, hx, hy, hmin, hmax]
          refine ⟨i + min (a : ℚ) b, u + max (a : ℚ) b, rfl, ?_, ?_⟩
          · have : (0 : ℚ) ≤ min (a : ℚ) b := le_min (Nat.cast_nonneg a) (Nat.cast_nonneg b)
            linarith
          · have : min (a : ℚ) b ≤ max (a : ℚ) b := min_le_max
            linarith

/-- The colour metric is a number in [0, 1] on all buffers. -/
theorem colorDistribution_range (data1 data2 : Buffer) :
    ∃ q : ℚ, calculateColorDistribution data1 data2 = num q ∧ 0 ≤ q ∧ q ≤ 1 := by
  unfold calculateColorDistribution
  simp only
  rcases colorSums_range (calculateHistogram data1) (calculateHistogram data2) with h | ⟨i, u, h, hi, hiu⟩
  · rw [h]
    exact ⟨0, rfl, le_refl _, zero_le_one⟩
  · rw [h]
    by_cases hu : (0 : ℚ) < u
    · refine ⟨i / u, ?_, div_nonneg hi hu.le, (div_le_one hu).2 hiu⟩
      simp [JSNum.gt, JSNum.lt, JSNum.div, hu, hu.ne.symm]
    · refine ⟨0, ?_, le_refl _, zero_le_one⟩
      simp [JSNum.gt, JSNum.lt, hu]

/-- A canonical buffer is not empty and holds whole pixels. -/
theorem canonical_shape (a : Buffer) (ha : IsCanonical a) : a ≠ [] ∧ a.length % 4 = 0 := by
  have hlen : a.length = 200 * 200 * 4 := ha.1
  constructor
  · intro h
    rw [h] at hlen
    simp at hlen
  · rw [hlen]

/-- Score of a whole-pixel, non-empty buffer against itself: at least 4/5. -/
theorem compareImages_self (a : Buffer) (hne : a ≠ []) (h4 : a.length % 4 = 0) :
    ∃ w : ℚ, compareImages a a = num w ∧ 4 / 5 ≤ w ∧ w ≤ 1 := by
  obtain ⟨c, hc, hc0, hc1⟩ := colorDistribution_range a a
  refine ⟨1 * (2 / 5) + 1 * (2 / 5) + c * (1 / 5), ?_, by linarith, by linarith⟩
  unfold compareImages
  simp only
  rw [pixelSimilarity_self a hne h4,
    structuralSimilarity_self a h4 200 200 (by norm_num) (by norm_num), hc,
    weightedSimilarity_num]


/-! ## Independence from the alpha channel -/

/-- Two loop bodies that agree on the elements of a list give the same loop. -/
theorem foldl_congr_mem {σ ι : Type} (f g : σ → ι → σ) (l : List ι)
    (h : ∀ s, ∀ i ∈ l, f s i = g s i) (init : σ) : l.foldl f init = l.foldl g init := by
  induction l generalizing init with
  | nil => rfl
  | cons i l ih =>
    rw [List.foldl_cons, List.foldl_cons, h init i (List.mem_cons_self _ _)]
    exact ih (fun s j hj => h s j (List.mem_cons_of_mem _ hj)) _

/-- The colour bytes of a pixel are the same in two buffers that differ in alpha only. -/
theorem sameRGB_pixel {a b : Buffer} (h : SameRGB a b) (m : Nat) :
    a[m * 4]? = b[m * 4]? ∧ a[m * 4 + 1]? = b[m * 4 + 1]? ∧ a[m * 4 + 2]? = b[m * 4 + 2]? :=
  ⟨h.2 _ (by omega), h.2 _ (by omega), h.2 _ (by omega)⟩

/-- The per-pixel test of the pixel metric does not read the alpha bytes. -/
theorem pixelSimilar_sameRGB {a a2 b b2 : Buffer} (ha : SameRGB a a2) (hb : SameRGB b b2)
    (m : Nat) : pixelSimilar a b (m * 4) = pixelSimilar a2 b2 (m * 4) := by
  obtain ⟨a0, a1, a2'⟩ := sameRGB_pixel ha m
  obtain ⟨b0, b1, b2'⟩ := sameRGB_pixel hb m
  unfold pixelSimilar
  rw [a0, a1, a2', b0, b1, b2']

/-- The pixel metric does not read the alpha bytes. -/
theorem pixelSimilarity_sameRGB {a a2 b b2 : Buffer} (ha : SameRGB a a2) (hb : SameRGB b b2) :
    calculatePixelSimilarity a b = calculatePixelSimilarity a2 b2 := by
  unfold calculatePixelSimilarity
  rw [pixelCounts_eq, pixelCounts_eq, ← ha.1]
  have hc : (stepIndices a.length 16).countP (pixelSimilar a b)
      = (stepIndices a.length 16).countP (pixelSimilar a2 b2) := by
    apply List.countP_congr
    intro i hi
    obtain ⟨_, k, rfl⟩ := (mem_stepIndices (by norm_num)).1 hi
    have e : 16 * k = (4 * k) * 4 := by ring
    rw [e, pixelSimilar_sameRGB ha hb]
  rw [hc]

/-- Reading a colour byte as a number gives the same value in both buffers. -/
theorem readNum_sameRGB {a b : Buffer} (h : SameRGB a b) (m : Nat) :
    readNum a (m * 4) = readNum b (m * 4) ∧ readNum a (m * 4 + 1) = readNum b (m * 4 + 1)
      ∧ readNum a (m * 4 + 2) = readNum b (m * 4 + 2) := by
  obtain ⟨h0, h1, h2⟩ := sameRGB_pixel h m
  unfold readNum
  rw [h0, h1, h2]
  exact ⟨rfl, rfl, rfl⟩

/-- The edge strength of a block does not depend on the alpha bytes. -/
theorem detectEdges_sameRGB {a b : Buffer} (h : SameRGB a b) (x y size width : Nat) :
    detectEdges a x y size width = detectEdges b x y size width := by
  unfold detectEdges
  simp only [h.1, (readNum_sameRGB h _).1, (readNum_sameRGB h _).2.1, (readNum_sameRGB h _).2.2]

/-- The structural metric does not read the alpha bytes. -/
theorem structuralSimilarity_sameRGB {a a2 b b2 : Buffer} (ha : SameRGB a a2)
    (hb : SameRGB b b2) (width height : Nat) :
    calculateStructuralSimilarity a b width height
      = calculateStructuralSimilarity a2 b2 width height := by
  unfold calculateStructuralSimilarity structuralCounts blockMatches
  simp only [detectEdges_sameRGB ha, detectEdges_sameRGB hb]

/-- The histogram does not depend on the alpha bytes. -/
theorem calculateHistogram_sameRGB {a b : Buffer} (h : SameRGB a b) :
    calculateHistogram a = calculateHistogram b := by
  unfold calculateHistogram
  rw [← h.1]
  apply foldl_congr_mem
  intro hist i hi
  obtain ⟨_, k, rfl⟩ := (mem_stepIndices (by norm_num)).1 hi
  obtain ⟨h0, h1, h2⟩ := sameRGB_pixel h k
  rw [Nat.mul_comm] at h0 h1 h2
  unfold histStep
  rw [h0, h1, h2]

/-- The colour metric does not read the alpha bytes. -/
theorem colorDistribution_sameRGB {a a2 b b2 : Buffer} (ha : SameRGB a a2)
    (hb : SameRGB b b2) :
    calculateColorDistribution a b = calculateColorDistribution a2 b2 := by
  unfold calculateColorDistribution
  rw [calculateHistogram_sameRGB ha, calculateHistogram_sameRGB hb]

/-- Uniform buffers of the same colour and size differ in alpha only. -/
theorem sameRGB_solid (r g b a1 a2 n : Nat) : SameRGB (solid r g b a1 n) (solid r g b a2 n) := by
  refine ⟨by rw [length_solid, length_solid], ?_⟩
  induction n with
  | zero => intro i _; rfl
  | succ n ih =>
    intro i hi
    rw [solid, solid]
    match i, hi with
    | 0, _ => rfl
    | 1, _ => rfl
    | 2, _ => rfl
    | 3, hi => exact absurd rfl hi
    | j + 4, hi =>
      simp only [List.getElem?_cons_succ]
      exact ih j (by omega)


/-! ## The video sampler -/

/-- The value returned by `checkFrame` is `undefined` on every path. -/
theorem checkFrame_result (adSets : List (String × List Buffer)) (frameImage : Buffer) :
    (checkFrame adSets frameImage).result = none := by
  unfold checkFrame
  split <;> rfl

/-- A tick of a scheduled interval on a playing video only runs `checkFrame`:
the test on its returned value never succeeds, so the interval stays scheduled. -/
theorem samplerStep_tick_playing (adSets : List (String × List Buffer)) (frames : Nat → Buffer)
    (stopped : Nat → Bool) (st : SamplerState) (k : Nat)
    (hact : st.intervalActive = true) (hplay : stopped k = false) :
    samplerStep adSets frames stopped st (TimerEvent.tick k)
      = (runCheckFrame adSets frames k st).1 := by
  have hr : (runCheckFrame adSets frames k st).2 = none := checkFrame_result _ _
  simp only [samplerStep, hact, hplay, hr, isAdResult, if_true]
  rfl

/-- A call of `checkFrame` that resolves nothing only records the capture. -/
theorem runCheckFrame_nomatch (adSets : List (String × List Buffer)) (frames : Nat → Buffer)
    (k : Nat) (st : SamplerState) (hno : (checkFrame adSets (frames k)).resolved = none) :
    (runCheckFrame adSets frames k st).1 = ⟨st.settled, st.intervalActive, st.captured ++ [k]⟩ := by
  simp only [runCheckFrame, hno]

/-- A call of `checkFrame` that resolves with `value` records the capture and
settles the promise if it is not settled yet. -/
theorem runCheckFrame_match (adSets : List (String × List Buffer)) (frames : Nat → Buffer)
    (k : Nat) (st : SamplerState) (value : ClassificationResult)
    (hm : (checkFrame adSets (frames k)).resolved = some value) :
    (runCheckFrame adSets frames k st).1
      = SamplerState.resolve ⟨st.settled, st.intervalActive, st.captured ++ [k]⟩ value := by
  simp only [runCheckFrame, hm]

/-- A settled promise keeps its value through every timer callback. -/
theorem samplerStep_settled (adSets : List (String × List Buffer)) (frames : Nat → Buffer)
    (stopped : Nat → Bool) (st : SamplerState) (e : TimerEvent) (v : ClassificationResult)
    (hs : st.settled = some v) : (samplerStep adSets frames stopped st e).settled = some v := by
  have hres : ∀ (s : SamplerState) (x : ClassificationResult), s.settled = some v →
      (s.resolve x).settled = some v := by
    intro s x h
    simp only [SamplerState.resolve, h]
  cases e with
  | timeout => exact hres _ _ hs
  | tick k =>
    unfold samplerStep
    by_cases hact : st.intervalActive = true
    · by_cases hst : stopped k = true
      · simp only [hact, hst, if_true]
        exact hres _ _ hs
      · have hst2 : stopped k = false := by simpa using hst
        have hr : (runCheckFrame adSets frames k st).2 = none := checkFrame_result _ _
        simp only [hact, hst2, hr, isAdResult, if_true]
        simp only [runCheckFrame]
        cases (checkFrame adSets (frames k)).resolved with
        | none => exact hs
        | some x => exact hres _ _ hs
    · simp only [hact]
      exact hs

/-- A settled promise keeps its value through any sequence of timer callbacks. -/
theorem foldl_samplerStep_settled (adSets : List (String × List Buffer))
    (frames : Nat → Buffer) (stopped : Nat → Bool) (l : List TimerEvent)
    (v : ClassificationResult) :
    ∀ st : SamplerState, st.settled = some v →
      (l.foldl (samplerStep adSets frames stopped) st).settled = some v := by
  induction l with
  | nil => intro st h; exact h
  | cons e l ih =>
    intro st h
    exact ih _ (samplerStep_settled adSets frames stopped st e v h)

/-- With no frame matching, a timer callback leaves the promise pending or
settled with not-ad. -/
theorem samplerStep_pending (adSets : List (String × List Buffer)) (frames : Nat → Buffer)
    (stopped : Nat → Bool) (hno : ∀ k, (checkFrame adSets (frames k)).resolved = none)
    (st : SamplerState) (e : TimerEvent)
    (hs : st.settled = none ∨ st.settled = some ⟨false, none⟩) :
    (samplerStep adSets frames stopped st e).settled = none
      ∨ (samplerStep adSets frames stopped st e).settled = some ⟨false, none⟩ := by
  rcases hs with hs | hs
  · cases e with
    | timeout =>
      right
      simp only [samplerStep, SamplerState.resolve, SamplerState.clearInterval, hs]
    | tick k =>
      unfold samplerStep
      by_cases hact : st.intervalActive = true
      · by_cases hst : stopped k = true
        · right
          simp only [hact, hst, if_true, SamplerState.resolve, SamplerState.clearInterval, hs]
        · left
          have hst2 : stopped k = false := by simpa using hst
          have hr : (runCheckFrame adSets frames k st).2 = none := checkFrame_result _ _
          simp only [hact, hst2, hr, isAdResult, if_true]
          simp only [runCheckFrame, hno k]
          exact hs
      · left
        simp only [hact]
        exact hs
  · exact Or.inr (samplerStep_settled adSets frames stopped st e _ hs)

/-- When no frame matches an advertiser image, `checkVideoForAds` resolves with
not-ad and no company. -/
theorem checkVideoForAds_no_match (d : Detector) (frames : Nat → Buffer) (stopped : Nat → Bool)
    (extra : Nat) (hno : ∀ k, (checkFrame d.adSets (frames k)).resolved = none) :
    (checkVideoForAds d frames stopped extra).settled = some ⟨false, none⟩ := by
  have hr : (runCheckFrame d.adSets frames 0 ⟨none, false, []⟩).2 = none :=
    checkFrame_result _ _
  unfold checkVideoForAds
  simp only [hr, isAdResult]
  rw [runCheckFrame_nomatch _ _ _ _ (hno 0)]
  simp only [timeline, List.foldl_append, List.foldl_cons, List.foldl_nil]
  apply foldl_samplerStep_settled
  have hbefore : ∀ (l : List TimerEvent) (st : SamplerState),
      (st.settled = none ∨ st.settled = some ⟨false, none⟩) →
      ((l.foldl (samplerStep d.adSets frames stopped) st).settled = none ∨
        (l.foldl (samplerStep d.adSets frames stopped) st).settled = some ⟨false, none⟩) := by
    intro l
    induction l with
    | nil => intro st h; exact h
    | cons e l ih =>
      intro st h
      exact ih _ (samplerStep_pending d.adSets frames stopped hno st e h)
  rcases hbefore ((List.range (5000 / d.videoFrameInterval)).map
      (fun j => TimerEvent.tick (j + 1))) ⟨none, true, [] ++ [0]⟩ (Or.inl rfl) with h | h
  · simp only [samplerStep, SamplerState.resolve, SamplerState.clearInterval, h]
  · simp only [samplerStep, SamplerState.resolve, SamplerState.clearInterval, h]

/-- Once the interval is cleared and the promise settled, timer callbacks change nothing. -/
theorem foldl_samplerStep_done (adSets : List (String × List Buffer)) (frames : Nat → Buffer)
    (stopped : Nat → Bool) (l : List TimerEvent) (v : ClassificationResult) (c : List Nat) :
    l.foldl (samplerStep adSets frames stopped) ⟨some v, false, c⟩ = ⟨some v, false, c⟩ := by
  induction l with
  | nil => rfl
  | cons e l ih =>
    rw [List.foldl_cons]
    cases e with
    | timeout => exact ih
    | tick k => exact ih

/-- The timer callbacks for the interval of 2000 ms. -/
theorem timeline_2000 (extra : Nat) :
    timeline 2000 extra = TimerEvent.tick 1 :: TimerEvent.tick 2 :: TimerEvent.timeout
      :: (List.range extra).map (fun j => TimerEvent.tick (5000 / 2000 + 1 + j)) := by
  rfl

/-- The call `resolve` touches neither the interval nor the captures, and
leaves the promise settled. -/
theorem resolve_fields (st : SamplerState) (v : ClassificationResult) :
    (st.resolve v).captured = st.captured ∧ (st.resolve v).intervalActive = st.intervalActive
      ∧ ∃ w, (st.resolve v).settled = some w := by
  unfold SamplerState.resolve
  cases h : st.settled with
  | none => exact ⟨rfl, rfl, v, rfl⟩
  | some w => exact ⟨rfl, rfl, w, h⟩

/-- A call of `checkFrame` records its tick and leaves the interval as it is. -/
theorem runCheckFrame_fields (adSets : List (String × List Buffer)) (frames : Nat → Buffer)
    (k : Nat) (st : SamplerState) :
    (runCheckFrame adSets frames k st).1.captured = st.captured ++ [k] ∧
      (runCheckFrame adSets frames k st).1.intervalActive = st.intervalActive := by
  simp only [runCheckFrame]
  cases (checkFrame adSets (frames k)).resolved with
  | none => exact ⟨rfl, rfl⟩
  | some v => exact ⟨(resolve_fields _ v).1, (resolve_fields _ v).2.1⟩

/-- A tick of a scheduled interval on a playing video captures a frame and
leaves the interval scheduled, also when the frame matches. -/
theorem samplerStep_tick_fields (adSets : List (String × List Buffer)) (frames : Nat → Buffer)
    (stopped : Nat → Bool) (st : SamplerState) (k : Nat)
    (hact : st.intervalActive = true) (hplay : stopped k = false) :
    (samplerStep adSets frames stopped st (TimerEvent.tick k)).captured = st.captured ++ [k] ∧
      (samplerStep adSets frames stopped st (TimerEvent.tick k)).intervalActive = true := by
  rw [samplerStep_tick_playing adSets frames stopped st k hact hplay]
  obtain ⟨h1, h2⟩ := runCheckFrame_fields adSets frames k st
  exact ⟨h1, h2.trans hact⟩

/-- The timeout clears the interval, settles the promise and captures nothing. -/
theorem samplerStep_timeout_fields (adSets : List (String × List Buffer))
    (frames : Nat → Buffer) (stopped : Nat → Bool) (st : SamplerState) :
    (samplerStep adSets frames stopped st TimerEvent.timeout).captured = st.captured ∧
      (samplerStep adSets frames stopped st TimerEvent.timeout).intervalActive = false ∧
      ∃ w, (samplerStep adSets frames stopped st TimerEvent.timeout).settled = some w := by
  obtain ⟨h1, h2, h3⟩ := resolve_fields st.clearInterval ⟨false, none⟩
  exact ⟨h1, h2, h3⟩

/-- Once the interval is cleared and the promise settled, later timer callbacks
change nothing. -/
theorem foldl_samplerStep_idle (adSets : List (String × List Buffer)) (frames : Nat → Buffer)
    (stopped : Nat → Bool) (l : List TimerEvent) (st : SamplerState)
    (hact : st.intervalActive = false) (hs : ∃ w, st.settled = some w) :
    l.foldl (samplerStep adSets frames stopped) st = st := by
  obtain ⟨settled, active, captured⟩ := st
  obtain ⟨w, hw⟩ := hs
  simp only at hact hw
  subst hact hw
  exact foldl_samplerStep_done adSets frames stopped l w captured

/-- On a playing video, with the interval of 2000 ms, frames are captured at
ticks 0, 1 and 2 and at no other tick, whatever the frames match; the interval
is cleared by the timeout. -/
theorem checkVideoForAds_captured (d : Detector) (frames : Nat → Buffer) (stopped : Nat → Bool)
    (extra : Nat) (hI : d.videoFrameInterval = 2000) (hplay : ∀ k, stopped k = false) :
    (checkVideoForAds d frames stopped extra).captured = [0, 1, 2] ∧
      (checkVideoForAds d frames stopped extra).intervalActive = false := by
  have hr : (runCheckFrame d.adSets frames 0 ⟨none, false, []⟩).2 = none :=
    checkFrame_result _ _
  have h0 := runCheckFrame_fields d.adSets frames 0 ⟨none, false, []⟩
  unfold checkVideoForAds
  simp only [hr, isAdResult, hI, timeline_2000, List.foldl_cons, Bool.false_eq_true,
    if_false]
  have h1 := samplerStep_tick_fields d.adSets frames stopped
    ⟨(runCheckFrame d.adSets frames 0 ⟨none, false, []⟩).1.settled, true,
      (runCheckFrame d.adSets frames 0 ⟨none, false, []⟩).1.captured⟩ 1 rfl (hplay 1)
  have h2 := samplerStep_tick_fields d.adSets frames stopped _ 2 h1.2 (hplay 2)
  have h3 := samplerStep_timeout_fields d.adSets frames stopped
    (samplerStep d.adSets frames stopped
      (samplerStep d.adSets frames stopped
        ⟨(runCheckFrame d.adSets frames 0 ⟨none, false, []⟩).1.settled, true,
          (runCheckFrame d.adSets frames 0 ⟨none, false, []⟩).1.captured⟩ (TimerEvent.tick 1))
      (TimerEvent.tick 2))
  rw [foldl_samplerStep_idle _ _ _ _ _ h3.2.1 h3.2.2]
  refine ⟨?_, h3.2.1⟩
  rw [h3.1, h2.1, h1.1]
  simp only [h0.1]
  rfl


/-- The value `await checkFrame()` hands back is `undefined`. -/
theorem runCheckFrame_result (adSets : List (String × List Buffer)) (frames : Nat → Buffer)
    (k : Nat) (st : SamplerState) : (runCheckFrame adSets frames k st).2 = none :=
  checkFrame_result _ _

/-- The outcome of `checkFrame` with one company holding one image. -/
theorem checkFrame_single (company : String) (frameImage adImg : Buffer) :
    checkFrame [(company, [adImg])] frameImage =
      if JSNum.gt (compareImages frameImage adImg) (num (1 / 4)) = true then
        ⟨some ⟨true, some company⟩, none⟩
      else ⟨none, none⟩ := by
  unfold checkFrame
  simp only [frameMatchesSets, frameMatchesImages]
  by_cases h : JSNum.gt (compareImages frameImage adImg) (num (1 / 4)) = true
  · simp only [h, if_true]
  · simp only [h, if_false]
    rfl

/-- The black image is canonical, so it scores at least 4/5 against itself. -/
theorem compareImages_black_gt :
    JSNum.gt (compareImages blackBuffer blackBuffer) (num (1 / 4)) = true := by
  obtain ⟨hne, h4⟩ := canonical_shape blackBuffer isCanonical_black
  obtain ⟨w, hw, hge, _⟩ := compareImages_self blackBuffer hne h4
  rw [hw]
  simp only [JSNum.gt, JSNum.lt, decide_eq_true_eq]
  linarith

/-- A white frame does not match the black advertiser image. -/
theorem checkFrame_white_black :
    checkFrame blackAdDetector.adSets whiteBuffer = ⟨none, none⟩ := by
  have hsets : blackAdDetector.adSets = [("stake", [blackBuffer])] := rfl
  rw [hsets, checkFrame_single, compareImages_white_black]
  have : JSNum.gt (num 0) (num (1 / 4)) = false := by
    simp only [JSNum.gt, JSNum.lt, decide_eq_false_iff_not]
    norm_num
  rw [this]
  rfl

/-- A black frame matches the black advertiser image, and `checkFrame` still
returns `undefined`. -/
theorem checkFrame_black_black :
    checkFrame blackAdDetector.adSets blackBuffer = ⟨some ⟨true, some "stake"⟩, none⟩ := by
  have hsets : blackAdDetector.adSets = [("stake", [blackBuffer])] := rfl
  rw [hsets, checkFrame_single, compareImages_black_gt]
  rfl

/-- When the first check matches nothing and the frame of tick 1 matches, the
promise is settled with the value of that match. -/
theorem checkVideoForAds_settled_at_tick_one (d : Detector) (frames : Nat → Buffer)
    (stopped : Nat → Bool) (extra : Nat) (v : ClassificationResult)
    (hI : d.videoFrameInterval = 2000) (hplay : ∀ k, stopped k = false)
    (f0 : (checkFrame d.adSets (frames 0)).resolved = none)
    (f1 : (checkFrame d.adSets (frames 1)).resolved = some v) :
    (checkVideoForAds d frames stopped extra).settled = some v := by
  have hr : (runCheckFrame d.adSets frames 0 ⟨none, false, []⟩).2 = none :=
    runCheckFrame_result _ _ _ _
  unfold checkVideoForAds
  simp only [hr, isAdResult, hI, timeline_2000, List.foldl_cons, Bool.false_eq_true,
    if_false]
  rw [runCheckFrame_nomatch _ _ _ _ f0]
  apply foldl_samplerStep_settled
  apply samplerStep_settled
  apply samplerStep_settled
  rw [samplerStep_tick_playing _ _ _ _ 1 rfl (hplay 1), runCheckFrame_match _ _ _ _ _ f1]
  rfl

/-- The run of `checkVideoForAds` on the video that is white at the first check
and black afterwards, with the black advertiser image: the promise is settled
with the match of tick 1, and tick 2 still captures a frame. -/
theorem checkVideoForAds_whiteThenBlack (extra : Nat) :
    (checkVideoForAds blackAdDetector whiteThenBlack playing extra).settled
        = some ⟨true, some "stake"⟩ ∧
      (checkVideoForAds blackAdDetector whiteThenBlack playing extra).captured = [0, 1, 2] := by
  have f0 : (checkFrame blackAdDetector.adSets (whiteThenBlack 0)).resolved = none := by
    rw [show whiteThenBlack 0 = whiteBuffer from rfl, checkFrame_white_black]
  have f1 : (checkFrame blackAdDetector.adSets (whiteThenBlack 1)).resolved
      = some ⟨true, some "stake"⟩ := by
    rw [show whiteThenBlack 1 = blackBuffer from rfl, checkFrame_black_black]
  exact ⟨checkVideoForAds_settled_at_tick_one blackAdDetector whiteThenBlack playing extra _
      rfl (fun _ => rfl) f0 f1,
    (checkVideoForAds_captured blackAdDetector whiteThenBlack playing extra rfl
      (fun _ => rfl)).1⟩

/-- A white frame matches no image of the black advertiser reference. -/
theorem checkFrame_allWhite (k : Nat) :
    (checkFrame blackAdDetector.adSets (allWhite k)).resolved = none := by
  rw [show allWhite k = whiteBuffer from rfl, checkFrame_white_black]

/-- With empty advertiser lists `checkFrame` resolves nothing. -/
theorem checkFrame_empty (adSets : List (String × List Buffer)) (frameImage : Buffer)
    (h : ∀ e ∈ adSets, e.2 = []) : (checkFrame adSets frameImage).resolved = none := by
  have hsets : frameMatchesSets frameImage adSets = none := by
    induction adSets with
    | nil => rfl
    | cons e rest ih =>
      obtain ⟨company, adImages⟩ := e
      have he : adImages = [] := h (company, adImages) (List.mem_cons_self _ _)
      subst he
      simp only [frameMatchesSets, frameMatchesImages, Bool.false_eq_true, if_false]
      exact ih (fun e he => h e (List.mem_cons_of_mem _ he))
  unfold checkFrame
  rw [hsets]

/-- A normal match makes `predict` answer not-ad for an image candidate. -/
theorem predict_normal_hit (d : Detector) (tweetImg : Buffer) (others : List Buffer)
    (videoResult : Option ClassificationResult)
    (h : (scanNormal d.thresholds tweetImg d.normalImages).1 = true) :
    predict d (tweetImg :: others) videoResult = ⟨false, none⟩ := by
  unfold predict predictTrace
  simp only [h, if_true]

/-- Without a normal match and without a matching company `predict` answers
not-ad for an image candidate. -/
theorem predict_no_hit (d : Detector) (tweetImg : Buffer) (others : List Buffer)
    (videoResult : Option ClassificationResult)
    (hn : (scanNormal d.thresholds tweetImg d.normalImages).1 = false)
    (ha : (scanAdSets d.thresholds tweetImg d.adSets).1 = none) :
    predict d (tweetImg :: others) videoResult = ⟨false, none⟩ := by
  unfold predict predictTrace
  simp only [hn, ha, Bool.false_eq_true, if_false]

/-- Structural similarity on a canvas that holds no examined block is 0/0. -/
theorem structuralSimilarity_no_block (data1 data2 : Buffer) (width height : Nat)
    (h : width ≤ 8 ∨ height ≤ 8) :
    (structuralCounts data1 data2 width height).2 = 0 ∧
      calculateStructuralSimilarity data1 data2 width height = nan := by
  have h2 : (structuralCounts data1 data2 width height).2 = 0 := by
    rw [structuralCounts_total]
    rcases h with h | h
    · have : (width - 8 + 7) / 8 = 0 := by omega
      rw [this, Nat.mul_zero]
    · have : (height - 8 + 7) / 8 = 0 := by omega
      rw [this, Nat.zero_mul]
  have h1 : (structuralCounts data1 data2 width height).1 = 0 := by
    have := structuralCounts_le data1 data2 width height
    omega
  refine ⟨h2, ?_⟩
  unfold calculateStructuralSimilarity
  simp only [h1, h2]
  simp [JSNum.div]


/-- When the first check matches, the promise is settled with that match. -/
theorem checkVideoForAds_settled_at_first_check (d : Detector) (frames : Nat → Buffer)
    (stopped : Nat → Bool) (extra : Nat) (v : ClassificationResult)
    (f0 : (checkFrame d.adSets (frames 0)).resolved = some v) :
    (checkVideoForAds d frames stopped extra).settled = some v := by
  have hr : (runCheckFrame d.adSets frames 0 ⟨none, false, []⟩).2 = none :=
    runCheckFrame_result _ _ _ _
  unfold checkVideoForAds
  simp only [hr, isAdResult, Bool.false_eq_true, if_false]
  apply foldl_samplerStep_settled
  rw [runCheckFrame_match _ _ _ _ _ f0]
  rfl

/-- The white frame matches the white advertiser image at the literal 0.25. -/
theorem checkFrame_white_white :
    checkFrame sameImageDetector.adSets whiteBuffer = ⟨some ⟨true, some "stake"⟩, none⟩ := by
  have hsets : sameImageDetector.adSets = [("stake", [whiteBuffer])] := rfl
  have hgt : JSNum.gt (compareImages whiteBuffer whiteBuffer) (num (1 / 4)) = true := by
    rw [compareImages_white]
    simp only [JSNum.gt, JSNum.lt, decide_eq_true_eq]
    norm_num
  rw [hsets, checkFrame_single, hgt]
  rfl

/-- The white image is a normal match for the detector that holds it in both lists. -/
theorem scanNormal_sameImage :
    (scanNormal sameImageDetector.thresholds whiteBuffer sameImageDetector.normalImages).1
      = true := by
  have h1 : sameImageDetector.thresholds = constructorThresholds := rfl
  have h2 : sameImageDetector.normalImages = [whiteBuffer] := rfl
  rw [scanNormal_fst, h1, h2, List.any_cons, compareImages_white, getThreshold_normal,
    exceeds_num]
  simp only [List.any_nil, Bool.or_false, decide_eq_true_eq]
  norm_num

/-! ## The claims, continued -/

/-- C11. On canonical buffers each of the pixel, structural and colour metrics
returns a finite number in the closed interval [0, 1]. -/
theorem metrics_in_unit_interval (a b : Buffer) (ha : IsCanonical a) (_hb : IsCanonical b) :
    (∃ p : ℚ, calculatePixelSimilarity a b = num p ∧ 0 ≤ p ∧ p ≤ 1) ∧
    (∃ s : ℚ, calculateStructuralSimilarity a b 200 200 = num s ∧ 0 ≤ s ∧ s ≤ 1) ∧
    (∃ c : ℚ, calculateColorDistribution a b = num c ∧ 0 ≤ c ∧ c ≤ 1) :=
  ⟨pixelSimilarity_range a b (canonical_shape a ha).1,
    structuralSimilarity_range a b 200 200 (by norm_num) (by norm_num),
    colorDistribution_range a b⟩

/-- C11, instance: the white and the black canonical buffers. -/
theorem metrics_in_unit_interval_witness :
    IsCanonical whiteBuffer ∧ IsCanonical blackBuffer ∧
    (∃ p : ℚ, calculatePixelSimilarity whiteBuffer blackBuffer = num p ∧ 0 ≤ p ∧ p ≤ 1) ∧
    (∃ s : ℚ, calculateStructuralSimilarity whiteBuffer blackBuffer 200 200 = num s
      ∧ 0 ≤ s ∧ s ≤ 1) ∧
    (∃ c : ℚ, calculateColorDistribution whiteBuffer blackBuffer = num c ∧ 0 ≤ c ∧ c ≤ 1) :=
  ⟨isCanonical_white, isCanonical_black,
    metrics_in_unit_interval whiteBuffer blackBuffer isCanonical_white isCanonical_black⟩

/-- C12. With no normal image and no advertiser image, `predict` returns not-ad
with no company: for every image candidate, for every video candidate whatever
its frames, and for a tweet with neither. -/
theorem predict_empty_references (d : Detector) (hn : d.normalImages = [])
    (ha : ∀ e ∈ d.adSets, e.2 = []) :
    (∀ (tweetImg : Buffer) (others : List Buffer) (videoResult : Option ClassificationResult),
      predict d (tweetImg :: others) videoResult = ⟨false, none⟩) ∧
    (∀ (frames : Nat → Buffer) (stopped : Nat → Bool) (extra : Nat),
      predict d [] (checkVideoForAds d frames stopped extra).settled = ⟨false, none⟩) ∧
    predict d [] none = ⟨false, none⟩ := by
  refine ⟨?_, ?_, rfl⟩
  · intro tweetImg others videoResult
    apply predict_no_hit
    · rw [hn]
      rfl
    · rw [scanAdSets_fst]
      have hfind : d.adSets.find? (adCategoryMatches d.thresholds tweetImg) = none := by
        rw [List.find?_eq_none]
        intro e he
        have : e.2 = [] := ha e he
        simp [adCategoryMatches, this]
      rw [hfind]
      rfl
  · intro frames stopped extra
    rw [checkVideoForAds_no_match d frames stopped extra
      (fun k => checkFrame_empty d.adSets (frames k) ha)]
    rfl

/-- C12, instance: the detector with an empty normal list and an empty `stake`
list, and the white image as candidate. -/
theorem predict_empty_references_witness :
    emptyDetector.normalImages = [] ∧ (∀ e ∈ emptyDetector.adSets, e.2 = []) ∧
    predict emptyDetector [whiteBuffer] none = ⟨false, none⟩ ∧
    predict emptyDetector [] (checkVideoForAds emptyDetector allWhite playing 1).settled
      = ⟨false, none⟩ := by
  have hn : emptyDetector.normalImages = [] := rfl
  have ha : ∀ e ∈ emptyDetector.adSets, e.2 = [] := by
    intro e he
    have : e = ("stake", []) := List.mem_singleton.1 he
    rw [this]
  have key := predict_empty_references emptyDetector hn ha
  exact ⟨hn, ha, key.1 whiteBuffer [] none, key.2.1 allWhite playing 1⟩

/-- C13 (the code departs from the claim). On empty buffers no pixel is
sampled, both counters are 0, and `calculatePixelSimilarity` returns 0/0, which
is NaN and not 0: the division has no guard. -/
theorem pixel_similarity_of_empty_buffers_is_nan :
    pixelCounts [] [] = (0, 0) ∧ calculatePixelSimilarity [] [] = nan ∧
      calculatePixelSimilarity [] [] ≠ num 0 := by
  have hc : pixelCounts [] [] = (0, 0) := by decide
  have hv : calculatePixelSimilarity [] [] = nan := by
    unfold calculatePixelSimilarity
    rw [hc]
    simp [JSNum.div]
  refine ⟨hc, hv, ?_⟩
  rw [hv]
  exact fun h => JSNum.noConfusion h

/-- C14 (the code departs from the claim). On a canvas narrower or lower than
one block no block is examined, and `calculateStructuralSimilarity` returns
0/0, which is NaN and not 0, whatever the buffers are. -/
theorem structural_similarity_of_small_canvas_is_nan (data1 data2 : Buffer) :
    (structuralCounts data1 data2 7 7).2 = 0 ∧
    calculateStructuralSimilarity data1 data2 7 7 = nan ∧
    calculateStructuralSimilarity data1 data2 7 200 = nan ∧
    calculateStructuralSimilarity data1 data2 200 7 = nan :=
  ⟨(structuralSimilarity_no_block data1 data2 7 7 (Or.inl (by norm_num))).1,
    (structuralSimilarity_no_block data1 data2 7 7 (Or.inl (by norm_num))).2,
    (structuralSimilarity_no_block data1 data2 7 200 (Or.inl (by norm_num))).2,
    (structuralSimilarity_no_block data1 data2 200 7 (Or.inr (by norm_num))).2⟩

/-- C15 (the code departs from the claim). With a black advertiser image, on a
playing video whose frame is white at the first check and black afterwards,
the frame of tick 1 matches and the promise is settled with ad for `stake`, but
`checkFrame` returns `undefined`, so the interval is not cleared and tick 2
captures and classifies one more frame. -/
theorem video_sampler_captures_after_match (extra : Nat) :
    (checkFrame blackAdDetector.adSets (whiteThenBlack 1)).resolved
        = some ⟨true, some "stake"⟩ ∧
    (checkFrame blackAdDetector.adSets (whiteThenBlack 1)).result = none ∧
    (checkVideoForAds blackAdDetector whiteThenBlack playing extra).settled
        = some ⟨true, some "stake"⟩ ∧
    (checkVideoForAds blackAdDetector whiteThenBlack playing extra).captured = [0, 1, 2] := by
  refine ⟨?_, checkFrame_result _ _, checkVideoForAds_whiteThenBlack extra⟩
  rw [show whiteThenBlack 1 = blackBuffer from rfl, checkFrame_black_black]

/-- C16. On a video that keeps playing with no matching frame, with the
interval of 2000 ms, `checkVideoForAds` classifies the frames of ticks 0, 1 and
2 (0, 2000 and 4000 ms) and no other, resolves with not-ad and no company, and
the interval is cleared, however long the run is observed after the timeout. -/
theorem video_sampler_timeout (d : Detector) (frames : Nat → Buffer) (stopped : Nat → Bool)
    (extra : Nat) (hI : d.videoFrameInterval = 2000) (hplay : ∀ k, stopped k = false)
    (hno : ∀ k, (checkFrame d.adSets (frames k)).resolved = none) :
    (checkVideoForAds d frames stopped extra).captured = [0, 1, 2] ∧
    (checkVideoForAds d frames stopped extra).settled = some ⟨false, none⟩ ∧
    (checkVideoForAds d frames stopped extra).intervalActive = false :=
  ⟨(checkVideoForAds_captured d frames stopped extra hI hplay).1,
    checkVideoForAds_no_match d frames stopped extra hno,
    (checkVideoForAds_captured d frames stopped extra hI hplay).2⟩

/-- C16, instance: an all-white video against the black advertiser image,
observed until 6000 ms. -/
theorem video_sampler_timeout_witness :
    blackAdDetector.videoFrameInterval = 2000 ∧ (∀ k, playing k = false) ∧
    (∀ k, (checkFrame blackAdDetector.adSets (allWhite k)).resolved = none) ∧
    (checkVideoForAds blackAdDetector allWhite playing 1).captured = [0, 1, 2] ∧
    (checkVideoForAds blackAdDetector allWhite playing 1).settled = some ⟨false, none⟩ ∧
    (checkVideoForAds blackAdDetector allWhite playing 1).intervalActive = false :=
  ⟨rfl, fun _ => rfl, checkFrame_allWhite,
    video_sampler_timeout blackAdDetector allWhite playing 1 rfl (fun _ => rfl)
      checkFrame_allWhite⟩

/-- C17 (the code departs from the claim). With the white image as normal
reference and as `stake` reference, `predict` answers not-ad for the white
image, while `checkFrame` on a frame with the same pixels resolves with ad for
`stake`, and so does `predict` for a video of such frames: `checkFrame` never
consults the normal images and compares with the literal 0.25, where `predict`
uses 0.35 for `stake`. -/
theorem frame_rule_differs_from_image_rule (extra : Nat) :
    predict sameImageDetector [whiteBuffer] none = ⟨false, none⟩ ∧
    (checkFrame sameImageDetector.adSets whiteBuffer).resolved = some ⟨true, some "stake"⟩ ∧
    predict sameImageDetector []
        (checkVideoForAds sameImageDetector allWhite playing extra).settled
      = ⟨true, some "stake"⟩ ∧
    companyThreshold sameImageDetector.thresholds "stake" = JSValue.number (num (7 / 20)) := by
  have hf : (checkFrame sameImageDetector.adSets (allWhite 0)).resolved
      = some ⟨true, some "stake"⟩ := by
    rw [show allWhite 0 = whiteBuffer from rfl, checkFrame_white_white]
  refine ⟨predict_normal_hit _ _ _ _ scanNormal_sameImage, ?_, ?_, companyThreshold_stake⟩
  · rw [checkFrame_white_white]
  · rw [checkVideoForAds_settled_at_first_check sameImageDetector allWhite playing extra _ hf]
    rfl

/-- C18 (the code departs from the claim). When one of two normal images fails
to load, `initialize` leaves `adSets` empty and `initialized` false although
the image of `stake` loads; when every image loads, `stake` is populated. -/
theorem failed_normal_load_aborts_ad_loading :
    promiseAll (oneNormalFails "ads/stake") = some [blackBuffer] ∧
    (initializeDetector newDetector oneNormalFails).1.adSets = [] ∧
    (initializeDetector newDetector oneNormalFails).2 = false ∧
    (initializeDetector newDetector allLoad).1.adSets = [("stake", [blackBuffer])] :=
  ⟨rfl, rfl, rfl, rfl⟩

/-- C19. For a canonical buffer the pixel and structural metrics against itself
are 1, so the weighted similarity is a number of at least 4/5, which exceeds
every threshold set by the constructor, whatever the colour metric returns. -/
theorem identical_reference_always_matches (a : Buffer) (ha : IsCanonical a) :
    calculatePixelSimilarity a a = num 1 ∧
    calculateStructuralSimilarity a a 200 200 = num 1 ∧
    ∃ w : ℚ, compareImages a a = num w ∧ 4 / 5 ≤ w ∧
      ∀ entry ∈ constructorThresholds,
        exceeds (compareImages a a) (JSValue.number entry.2) = true := by
  obtain ⟨hne, h4⟩ := canonical_shape a ha
  obtain ⟨w, hw, hge, _⟩ := compareImages_self a hne h4
  refine ⟨pixelSimilarity_self a hne h4,
    structuralSimilarity_self a h4 200 200 (by norm_num) (by norm_num), w, hw, hge, ?_⟩
  intro entry hentry
  rw [hw]
  simp only [constructorThresholds, List.mem_cons, List.mem_nil_iff, or_false] at hentry
  rcases hentry with h | h | h <;> rw [h] <;>
    simp only [exceeds_num, decide_eq_true_eq] <;> linarith

/-- C19, instance: the white canonical buffer. -/
theorem identical_reference_always_matches_witness :
    IsCanonical whiteBuffer ∧
    calculatePixelSimilarity whiteBuffer whiteBuffer = num 1 ∧
    calculateStructuralSimilarity whiteBuffer whiteBuffer 200 200 = num 1 ∧
    ∃ w : ℚ, compareImages whiteBuffer whiteBuffer = num w ∧ 4 / 5 ≤ w ∧
      ∀ entry ∈ constructorThresholds,
        exceeds (compareImages whiteBuffer whiteBuffer) (JSValue.number entry.2) = true :=
  ⟨isCanonical_white, identical_reference_always_matches whiteBuffer isCanonical_white⟩

/-- C20. When two pairs of buffers of equal length differ in alpha bytes only,
the pixel, structural and colour metrics return the same value on both pairs. -/
theorem alpha_never_influences_a_score (a a2 b b2 : Buffer) (ha : SameRGB a a2)
    (hb : SameRGB b b2) :
    calculatePixelSimilarity a b = calculatePixelSimilarity a2 b2 ∧
    (∀ width height : Nat, calculateStructuralSimilarity a b width height
      = calculateStructuralSimilarity a2 b2 width height) ∧
    calculateColorDistribution a b = calculateColorDistribution a2 b2 :=
  ⟨pixelSimilarity_sameRGB ha hb, structuralSimilarity_sameRGB ha hb,
    colorDistribution_sameRGB ha hb⟩

/-- C20, instance: the opaque white and black canonical buffers against the
same buffers with alpha 0. -/
theorem alpha_never_influences_a_score_witness :
    SameRGB whiteBuffer whiteClearBuffer ∧ SameRGB blackBuffer blackClearBuffer ∧
    calculatePixelSimilarity whiteBuffer blackBuffer
      = calculatePixelSimilarity whiteClearBuffer blackClearBuffer ∧
    calculateStructuralSimilarity whiteBuffer blackBuffer 200 200
      = calculateStructuralSimilarity whiteClearBuffer blackClearBuffer 200 200 ∧
    calculateColorDistribution whiteBuffer blackBuffer
      = calculateColorDistribution whiteClearBuffer blackClearBuffer := by
  have hw : SameRGB whiteBuffer whiteClearBuffer := sameRGB_solid 255 255 255 255 0 (200 * 200)
  have hb : SameRGB blackBuffer blackClearBuffer := sameRGB_solid 0 0 0 255 0 (200 * 200)
  have key := alpha_never_influences_a_score whiteBuffer whiteClearBuffer blackBuffer
    blackClearBuffer hw hb
  exact ⟨hw, hb, key.1, key.2.1 200 200, key.2.2⟩


/-! ## The ad step against the specification -/

/-- A category with one image matches when that image scores above the
threshold `predict` computes. -/
theorem adCategoryMatches_single (thresholds : List (String × JSNum)) (tweetImg adImg : Buffer)
    (company : String) :
    adCategoryMatches thresholds tweetImg (company, [adImg])
      = exceeds (compareImages tweetImg adImg) (companyThreshold thresholds company) := by
  simp [adCategoryMatches]

/-- A category with one image matches, for the specification, when that image
scores above the entry of the category or, without an entry, the default. -/
theorem specCategoryMatches_single (thresholds : List (String × JSNum))
    (tweetImg adImg : Buffer) (company : String) :
    specCategoryMatches thresholds tweetImg (company, [adImg])
      = exceeds (compareImages tweetImg adImg) (specCategoryThreshold thresholds company) := by
  simp [specCategoryMatches]

/-- The ad step of the specification on one category with one image. -/
theorem specAdMatch_single (thresholds : List (String × JSNum)) (tweetImg adImg : Buffer)
    (company : String) :
    specAdMatch thresholds tweetImg [(company, [adImg])]
      = if exceeds (compareImages tweetImg adImg) (specCategoryThreshold thresholds company)
          = true then ⟨true, some company⟩ else ⟨false, none⟩ := by
  unfold specAdMatch
  by_cases h : exceeds (compareImages tweetImg adImg)
      (specCategoryThreshold thresholds company) = true
  · simp [List.find?_cons, specCategoryMatches_single, h]
  · simp [List.find?_cons, specCategoryMatches_single, h]

/-- The ad step of `predict` on one category with one image. -/
theorem predict_single (d : Detector) (tweetImg adImg : Buffer) (company : String)
    (others : List Buffer) (videoResult : Option ClassificationResult)
    (hsets : d.adSets = [(company, [adImg])])
    (hn : ∀ n ∈ d.normalImages,
      exceeds (compareImages tweetImg n) (getThreshold d.thresholds "normal") = false) :
    predict d (tweetImg :: others) videoResult
      = if exceeds (compareImages tweetImg adImg) (companyThreshold d.thresholds company)
          = true then ⟨true, some company⟩ else ⟨false, none⟩ := by
  rw [predict_first_matching_company d tweetImg others videoResult hn, hsets]
  by_cases h : exceeds (compareImages tweetImg adImg)
      (companyThreshold d.thresholds company) = true
  · simp [List.find?_cons, adCategoryMatches_single, h]
  · simp [List.find?_cons, adCategoryMatches_single, h]

/-- The threshold `predict` computes is the one of the specification when the
explicit entry is truthy, or when there is no entry and the name is not one of
`Object.prototype`. -/
theorem companyThreshold_eq_spec (thresholds : List (String × JSNum)) (company : String)
    (h : match thresholds.lookup company with
      | some t => JSNum.truthy t = true
      | none => objectPrototypeNames.contains company = false) :
    companyThreshold thresholds company = specCategoryThreshold thresholds company := by
  unfold companyThreshold specCategoryThreshold getThreshold
  cases hl : thresholds.lookup company with
  | none =>
    rw [hl] at h
    simp only at h
    simp only [h, jsOr, JSValue.truthy, Bool.false_eq_true, if_false]
  | some t =>
    rw [hl] at h
    simp only at h
    simp only [jsOr, JSValue.truthy, h, if_true]

/-- Two tests that agree on the elements of a list find the same first element. -/
theorem find?_congr_mem {α : Type} (p q : α → Bool) (l : List α)
    (h : ∀ x ∈ l, p x = q x) : l.find? p = l.find? q := by
  induction l with
  | nil => rfl
  | cons x l ih =>
    rw [List.find?_cons, List.find?_cons, h x (List.mem_cons_self _ _),
      ih (fun y hy => h y (List.mem_cons_of_mem _ hy))]

/-- Where the threshold `predict` computes is the one of the specification for
every company of `adSets`, `predict` returns what the specification says. -/
theorem predict_meets_spec (d : Detector) (tweetImg : Buffer) (others : List Buffer)
    (videoResult : Option ClassificationResult)
    (hn : ∀ n ∈ d.normalImages,
      exceeds (compareImages tweetImg n) (getThreshold d.thresholds "normal") = false)
    (ht : ∀ e ∈ d.adSets,
      companyThreshold d.thresholds e.1 = specCategoryThreshold d.thresholds e.1) :
    predict d (tweetImg :: others) videoResult
      = specAdMatch d.thresholds tweetImg d.adSets := by
  rw [predict_first_matching_company d tweetImg others videoResult hn, specAdMatch]
  have hfind : d.adSets.find? (adCategoryMatches d.thresholds tweetImg)
      = d.adSets.find? (specCategoryMatches d.thresholds tweetImg) := by
    apply find?_congr_mem
    intro e he
    unfold adCategoryMatches specCategoryMatches
    rw [ht e he]
  rw [hfind]


/-- The white candidate scores above the normal threshold 1/4 against no image
of a normal list that holds the black image only. -/
theorem white_misses_black_normal (thresholds : List (String × JSNum))
    (hth : getThreshold thresholds "normal" = JSValue.number (num (1 / 4))) :
    ∀ n ∈ [blackBuffer], exceeds (compareImages whiteBuffer n)
      (getThreshold thresholds "normal") = false := by
  intro n hn
  have hn2 : n = blackBuffer := List.mem_singleton.1 hn
  subst hn2
  rw [compareImages_white_black, hth, exceeds_num]
  norm_num

/-- The thresholds read from the table with the entry 0 for `stake` and the
default 0.9: `predict` compares `stake` with the default, the specification
with the entry. -/
theorem thresholds_zeroStakeHighDefault :
    getThreshold zeroStakeHighDefault "normal" = JSValue.number (num (1 / 4)) ∧
    companyThreshold zeroStakeHighDefault "stake" = JSValue.number (num (9 / 10)) ∧
    specCategoryThreshold zeroStakeHighDefault "stake" = JSValue.number (num 0) := by
  refine ⟨?_, ?_, ?_⟩
  · simp [getThreshold, zeroStakeHighDefault, List.lookup]
  · simp [companyThreshold, getThreshold, zeroStakeHighDefault, List.lookup, jsOr,
      JSValue.truthy, JSNum.truthy]
  · simp [specCategoryThreshold, zeroStakeHighDefault, List.lookup]

/-- The thresholds read for a company named `constructor` from the table of
the constructor: `predict` reads the inherited function, the specification the
default. -/
theorem thresholds_constructor_name :
    companyThreshold constructorThresholds "constructor" = JSValue.inherited ∧
    specCategoryThreshold constructorThresholds "constructor"
      = JSValue.number (num (1 / 4)) := by
  constructor
  · simp [companyThreshold, getThreshold, constructorThresholds, List.lookup, jsOr,
      JSValue.truthy, objectPrototypeNames]
  · simp [specCategoryThreshold, getThreshold, constructorThresholds, List.lookup]

/-- C5 (the code departs from the claim). The white candidate scores 0 against
the black normal image and 4/5 against the white advertiser image. With the
entry 0 for `stake` and the default 0.9 the score exceeds the threshold of
`stake`, so the claim gives ad for `stake`, but `predict` compares with the
default and returns not-ad. With the table of the constructor and a company
named `constructor`, which has no entry, the claim gives ad at the default
0.25, but `predict` compares with the inherited function and returns not-ad. -/
theorem predict_misses_the_threshold_of_the_category :
    (∀ n ∈ zeroStakeDetector.normalImages, exceeds (compareImages whiteBuffer n)
      (getThreshold zeroStakeDetector.thresholds "normal") = false) ∧
    specAdMatch zeroStakeDetector.thresholds whiteBuffer zeroStakeDetector.adSets
      = ⟨true, some "stake"⟩ ∧
    predict zeroStakeDetector [whiteBuffer] none = ⟨false, none⟩ ∧
    (∀ n ∈ constructorNameDetector.normalImages, exceeds (compareImages whiteBuffer n)
      (getThreshold constructorNameDetector.thresholds "normal") = false) ∧
    specAdMatch constructorNameDetector.thresholds whiteBuffer constructorNameDetector.adSets
      = ⟨true, some "constructor"⟩ ∧
    predict constructorNameDetector [whiteBuffer] none = ⟨false, none⟩ := by
  have hz : zeroStakeDetector.thresholds = zeroStakeHighDefault := rfl
  have hzs : zeroStakeDetector.adSets = [("stake", [whiteBuffer])] := rfl
  have hzn : zeroStakeDetector.normalImages = [blackBuffer] := rfl
  have hc : constructorNameDetector.thresholds = constructorThresholds := rfl
  have hcs : constructorNameDetector.adSets = [("constructor", [whiteBuffer])] := rfl
  have hcn : constructorNameDetector.normalImages = [blackBuffer] := rfl
  have h1 : ∀ n ∈ zeroStakeDetector.normalImages, exceeds (compareImages whiteBuffer n)
      (getThreshold zeroStakeDetector.thresholds "normal") = false := by
    rw [hz, hzn]
    exact white_misses_black_normal _ thresholds_zeroStakeHighDefault.1
  have h2 : ∀ n ∈ constructorNameDetector.normalImages, exceeds (compareImages whiteBuffer n)
      (getThreshold constructorNameDetector.thresholds "normal") = false := by
    rw [hc, hcn]
    exact white_misses_black_normal _ getThreshold_normal
  refine ⟨h1, ?_, ?_, h2, ?_, ?_⟩
  · rw [hz, hzs, specAdMatch_single, thresholds_zeroStakeHighDefault.2.2, compareImages_white,
      exceeds_num, if_pos]
    rw [decide_eq_true_eq]
    norm_num
  · rw [predict_single zeroStakeDetector whiteBuffer whiteBuffer "stake" [] none hzs h1, hz,
      thresholds_zeroStakeHighDefault.2.1, compareImages_white, exceeds_num, if_neg]
    rw [decide_eq_true_eq]
    norm_num
  · rw [hc, hcs, specAdMatch_single, thresholds_constructor_name.2, compareImages_white,
      exceeds_num, if_pos]
    rw [decide_eq_true_eq]
    norm_num
  · rw [predict_single constructorNameDetector whiteBuffer whiteBuffer "constructor" [] none
      hcs h2, hc, thresholds_constructor_name.1, if_neg]
    simp [exceeds]

end ImageAdDetector
